import Mathlib

/-!
Shallow embedding of the prerevenue valuation / scoring core.

Sources embedded here:
* `pages/api/successscore/index.ts` — valuation estimator, quality multiplier,
  rule-based fallback scorer, oracle response parsing, HTTP handler shape.
* `pages/api/market-analysis/index.ts` (authenticated variant) — calibration
  builder (`analyzeMarketData` and its helpers) and the protected POST handler.
* `pages/api/market-analysis/index.ts` (legacy unauthenticated variant under
  `src/pages`) — POST handler without an authorization check.
* `scripts/update-market-data.js` — the standalone calibration script's
  `generateCategoryMultipliers`.
* `pages/api/analyze-success-patterns.ts` — `calculateValuationMetrics`, the
  outlier-filtered ratio statistics referenced by the spec.

JavaScript numbers are modelled as exact rationals (`ℚ`); `Math.round` is
`jround` below (floor of `x + 1/2`, which matches JS semantics including at
`.5`).  JS string operations used by the code (`includes`, `toLowerCase`,
`trim`, `split(' ')`) are modelled on `List Char` so that they stay kernel
computable.
-/

/-- JS `Math.round`: floor of `q + 1/2`.  Defined via the computable
`Rat.floor` so that concrete instances evaluate. -/
def jround (q : ℚ) : ℤ := Rat.floor (q + 1/2)

/-- Rounding to two decimal places, JS `Math.round(x * 100) / 100`. -/
def round2 (q : ℚ) : ℚ := (jround (q * 100) : ℚ) / 100

/-- Rounding to one decimal place, JS `Math.round(x * 10) / 10`. -/
def round1 (q : ℚ) : ℚ := (jround (q * 10) : ℚ) / 10

/-- Does the first list occur as a prefix of the second (JS `startsWith` on
char arrays)? -/
def listStartsWith : List Char → List Char → Bool
  | [],      _       => true
  | _ :: _,  []      => false
  | p :: ps, c :: cs => p == c && listStartsWith ps cs

/-- Does `pat` occur as a contiguous substring of the second list? -/
def listHasSub (pat : List Char) : List Char → Bool
  | [] => pat.isEmpty
  | c :: cs => listStartsWith pat (c :: cs) || listHasSub pat cs

/-- JS `s.includes(sub)`. -/
def includesStr (s sub : String) : Bool := listHasSub sub.data s.data

/-- Lowercase a character (ASCII, which is all the code's keyword tables
use). -/
def lowerChar (c : Char) : Char :=
  if c.isUpper then Char.ofNat (c.toNat + 32) else c

/-- JS `s.toLowerCase()` (ASCII fragment). -/
def lowerStr (s : String) : String := ⟨s.data.map lowerChar⟩

/-- JS `s.trim()`: strip leading and trailing whitespace. -/
def trimStr (s : String) : String :=
  ⟨(((s.data.dropWhile Char.isWhitespace).reverse.dropWhile
      Char.isWhitespace).reverse)⟩

/-- JS `s.length` (all strings involved are ASCII, so UTF-16 length is the
character count). -/
def strLen (s : String) : ℕ := s.data.length

/-- JS `s.split(' ').length`: one more than the number of space characters. -/
def wordCount (s : String) : ℕ := (s.data.filter (· == ' ')).length + 1

/-- Market data as read by the valuation estimator and fallback scorer: only
the category multiplier table is consulted by those functions
(`successscore/index.ts`). -/
structure MarketData where
  categoryMultipliers : List (String × ℚ)
deriving DecidableEq

/-- Default category multipliers from `getDefaultMarketData` in
`successscore/index.ts`. -/
def defaultMarketData : MarketData :=
  { categoryMultipliers :=
      [("AI", 1.8), ("SaaS", 1.6), ("Automation", 1.5), ("API", 1.4),
       ("E-commerce", 1.3), ("Chrome Extension", 1.3), ("Webflow", 1.2),
       ("Mobile App", 1.1), ("Marketplace", 1.0), ("Newsletter", 0.9),
       ("Web3", 0.8), ("Community", 0.7), ("Blog", 0.6),
       ("Social Media", 0.5)] }

/-- The fuzzy-matching synonym table `categoryMappings` in
`getCategoryMultiplier`. -/
def categoryMappings : List (String × List String) :=
  [("SaaS", ["saas", "software", "software-as-a-service", "b2b software",
             "web app"]),
   ("AI", ["ai", "artificial intelligence", "machine learning", "ml", "gpt",
           "llm"]),
   ("E-commerce", ["ecommerce", "e-commerce", "online store", "marketplace",
                   "retail"]),
   ("API", ["api", "rest api", "graphql", "webhook", "integration"]),
   ("Chrome Extension", ["chrome extension", "browser extension",
                         "extension"]),
   ("Mobile App", ["mobile app", "ios app", "android app", "react native",
                   "flutter"]),
   ("Newsletter", ["newsletter", "email list", "email marketing",
                   "substack"]),
   ("Web3", ["web3", "crypto", "blockchain", "nft", "defi", "dao"]),
   ("Community", ["community", "forum", "discord", "social network"]),
   ("Blog", ["blog", "content site", "news site", "publication"]),
   ("Automation", ["automation", "workflow", "zapier", "no-code"])]

/-- Truthy JS object lookup `m[k]`: a present value of `0` is falsy and
treated like an absent key. -/
def truthyLookup (m : List (String × ℚ)) (k : String) : Option ℚ :=
  match List.lookup k m with
  | some v => if v = 0 then none else some v
  | none => none

/-- First synonym-table row whose variation list matches `categoryLower`
(either direction of `includes`), as in the `for … of` loop of
`getCategoryMultiplier`. -/
def findMapping (categoryLower : String) :
    List (String × List String) → Option String
  | [] => none
  | (mainCategory, variations) :: rest =>
      if variations.any (fun v =>
          includesStr categoryLower v || includesStr v categoryLower) then
        some mainCategory
      else findMapping categoryLower rest

/-- `getCategoryMultiplier` from `successscore/index.ts`: direct truthy
lookup, then fuzzy matching through `categoryMappings`, default `1.0`. -/
def getCategoryMultiplier (category : String) (marketData : MarketData) : ℚ :=
  if category = "" then 1.0
  else
    let categoryLower := trimStr (lowerStr category)
    match truthyLookup marketData.categoryMultipliers category with
    | some v => v
    | none =>
        match findMapping categoryLower categoryMappings with
        | some mainCategory =>
            (truthyLookup marketData.categoryMultipliers mainCategory).getD 1.0
        | none => 1.0

/-- A startup submission after the handler's `parseInt`/default extraction:
numeric fields are the parsed non-negative integers, `categories` the
submitted list, `tagline` the raw string. -/
structure Submission where
  tagline : String
  user_base : ℕ
  traffic : ℕ
  monthly_cost : ℕ
  categories : List String
deriving DecidableEq

/-- User-base tier table of `getEstimatedValuation` step 1 (value added when
`userBase > 0`). -/
def userBaseValue (userBase : ℕ) : ℚ :=
  if userBase > 0 then
    if userBase ≥ 10000 then (userBase : ℚ) * 3
    else if userBase ≥ 5000 then (userBase : ℚ) * 2.5
    else if userBase ≥ 2500 then (userBase : ℚ) * 2
    else if userBase ≥ 1000 then (userBase : ℚ) * 1.5
    else if userBase ≥ 500 then (userBase : ℚ) * 1
    else (userBase : ℚ) * 0.5
  else 0

/-- Traffic tier table of `getEstimatedValuation` step 2. -/
def trafficTierValue (monthlyTraffic : ℕ) : ℚ :=
  if monthlyTraffic > 0 then
    if monthlyTraffic ≥ 100000 then (monthlyTraffic : ℚ) * 0.08
    else if monthlyTraffic ≥ 50000 then (monthlyTraffic : ℚ) * 0.06
    else if monthlyTraffic ≥ 20000 then (monthlyTraffic : ℚ) * 0.05
    else if monthlyTraffic ≥ 8000 then (monthlyTraffic : ℚ) * 0.03
    else if monthlyTraffic ≥ 3000 then (monthlyTraffic : ℚ) * 0.02
    else (monthlyTraffic : ℚ) * 0.01
  else 0

/-- Revenue-potential component of `getEstimatedValuation` step 3:
`estimatedMRR = max(userBase*0.01, 0)`, annualised and multiplied by 1.2. -/
def revenuePotentialValue (userBase : ℕ) : ℚ :=
  let estimatedMRR : ℚ := max ((userBase : ℚ) * 0.01) 0
  if estimatedMRR > 0 then estimatedMRR * 12 * 1.2 else 0

/-- Word lists used by `calculateBalancedQualityMultiplier`. -/
def strongWords : List String :=
  ["ai", "automation", "saas", "platform", "api", "tool for"]

def targetWords : List String :=
  ["businesses", "developers", "teams", "companies"]

def vagueWords : List String :=
  ["easy", "simple", "fast", "best", "revolutionary"]

/-- Test-data indicator list shared by the valuation and scoring paths. -/
def testIndicators : List String :=
  ["test", "hello", "asdf", "123", "qwerty", "sample", "example"]

/-- Does the (lowercased) tagline contain a test indicator? -/
def hasTestIndicator (tagline : String) : Bool :=
  let taglineLower := lowerStr tagline
  testIndicators.any (fun word => includesStr taglineLower word)

/-- `calculateBalancedQualityMultiplier` from `successscore/index.ts`. -/
def calculateBalancedQualityMultiplier (tagline : String)
    (userBase monthlyTraffic monthlyCost : ℕ) : ℚ :=
  let m1 : ℚ :=
    if tagline = "" ∨ strLen tagline < 5 then 1.0 * 0.8
    else
      let taglineLower := lowerStr tagline
      let a : ℚ :=
        if strongWords.any (fun w => includesStr taglineLower w) then
          1.0 * 1.15
        else 1.0
      let b : ℚ :=
        if targetWords.any (fun w => includesStr taglineLower w) then
          a * 1.08
        else a
      if vagueWords.any (fun w => includesStr taglineLower w) then b * 0.95
      else b
  let m2 : ℚ :=
    if monthlyCost > 0 then
      let totalTraction : ℚ := (userBase : ℚ) + (monthlyTraffic : ℚ) / 10
      let efficiency : ℚ := totalTraction / (monthlyCost : ℚ)
      if efficiency > 10 then m1 * 1.2
      else if efficiency > 5 then m1 * 1.08
      else if efficiency > 1 then m1 * 1.0
      else if efficiency > 0.2 then m1 * 0.9
      else m1 * 0.7
    else m1
  let trafficToUserRatio : ℚ :=
    if userBase > 0 then (monthlyTraffic : ℚ) / (userBase : ℚ) else 0
  let m3 : ℚ :=
    if trafficToUserRatio > 10 then m2 * 1.15
    else if trafficToUserRatio < 2 ∧ userBase > 100 then m2 * 0.95
    else m2
  max 0.5 (min 1.8 m3)

/-- Result shape of `getEstimatedValuation`. -/
structure ValuationOutcome where
  valuation : ℤ
  isMaxValuation : Bool
deriving DecidableEq

/-- The pre-revenue ceiling `maxValuation` in `getEstimatedValuation`. -/
def maxValuation : ℚ := 50000

/-- Normal (non-exception) path of `getEstimatedValuation` from
`successscore/index.ts`, applied to the parsed submission and the loaded
market data. -/
def getEstimatedValuation (formData : Submission) (marketData : MarketData) :
    ValuationOutcome :=
  let userBase := formData.user_base
  let monthlyTraffic := formData.traffic
  let monthlyCost := formData.monthly_cost
  let categories := formData.categories
  let tagline := formData.tagline
  let base : ℚ :=
    userBaseValue userBase + trafficTierValue monthlyTraffic +
      revenuePotentialValue userBase
  let categoryMultiplier : ℚ :=
    if categories.length > 0 then
      let categoryValues := categories.map
        (fun cat => getCategoryMultiplier cat marketData)
      categoryValues.sum / (categoryValues.length : ℚ)
    else 1.0
  let v1 := base * categoryMultiplier
  let qualityMultiplier :=
    calculateBalancedQualityMultiplier tagline userBase monthlyTraffic
      monthlyCost
  let v2 := v1 * qualityMultiplier
  let v3 :=
    if userBase < 10 ∧ monthlyTraffic < 100 ∧
        (tagline = "" ∨ strLen tagline < 10) then min v2 200
    else if userBase < 50 ∧ monthlyTraffic < 500 then min v2 1000
    else if userBase < 200 ∧ monthlyTraffic < 2000 then min v2 5000
    else v2
  let v4 :=
    if monthlyCost > 1000 ∧ userBase < 50 then v3 * 0.6
    else if monthlyCost > 500 ∧ userBase < 25 then v3 * 0.4
    else v3
  let v5 :=
    if tagline = "" ∨ strLen tagline < 5 then v4 * 0.5
    else if strLen tagline < 15 then v4 * 0.7
    else v4
  let v6 := if hasTestIndicator tagline then min v5 300 else v5
  let hasAnyTraction := userBase ≥ 10 ∨ monthlyTraffic ≥ 100
  let hasValidTagline :=
    tagline ≠ "" ∧ strLen tagline ≥ 10 ∧ ¬(hasTestIndicator tagline = true)
  let v7 :=
    if v6 < 500 ∧ hasAnyTraction ∧ hasValidTagline then 500
    else if v6 < 200 ∧ (hasAnyTraction ∨ hasValidTagline) then 200
    else if v6 < 50 ∧ (tagline ≠ "" ∨ userBase > 0 ∨ monthlyTraffic > 0) then
      50
    else v6
  let isMax := v7 ≥ maxValuation
  let v8 := min v7 maxValuation
  { valuation := jround (max 0 v8), isMaxValuation := isMax }

/-- Catch-branch of `getEstimatedValuation` ("Return a very basic
estimate"): used when the main computation throws. -/
def getEstimatedValuationFallback (formData : Submission) :
    ValuationOutcome :=
  let userBase := formData.user_base
  let monthlyTraffic := formData.traffic
  let basicValuation : ℚ :=
    max ((userBase : ℚ) * 1.5 + (monthlyTraffic : ℚ) * 0.03) 500
  { valuation := jround basicValuation, isMaxValuation := false }

/-- User-base threshold table passed to `calculateBalancedTractionScore` for
`userScore`. -/
def userScoreThresholds : List (ℕ × ℤ) :=
  [(10000, 20), (5000, 18), (2500, 16), (1000, 14), (500, 12), (100, 10),
   (50, 8), (10, 6), (1, 4), (0, 2)]

/-- Traffic threshold table passed to `calculateBalancedTractionScore` for
`trafficScore`. -/
def trafficScoreThresholds : List (ℕ × ℤ) :=
  [(50000, 20), (20000, 18), (8000, 16), (3000, 14), (1000, 12), (500, 10),
   (100, 8), (50, 6), (10, 4), (0, 2)]

/-- `calculateBalancedTractionScore`: first tier whose threshold the value
meets, `0` if the loop falls through. -/
def calculateBalancedTractionScore (value : ℕ) :
    List (ℕ × ℤ) → ℤ
  | [] => 0
  | (threshold, points) :: rest =>
      if value ≥ threshold then points
      else calculateBalancedTractionScore value rest

/-- Keyword tables of `evaluateBalancedProductQuality`. -/
def valueWords : List String :=
  ["helps", "enables", "automates", "simplifies", "improves", "optimizes",
   "manages", "connects", "creates", "builds"]

def solutionWords : List String :=
  ["platform", "tool", "solution", "service", "system", "app", "software"]

def modernTechWords : List String :=
  ["ai", "ml", "automation", "api", "saas", "cloud", "dashboard"]

def targetMarkets : List String :=
  ["businesses", "companies", "teams", "developers", "creators",
   "entrepreneurs", "professionals"]

def specificMarkets : List String :=
  ["e-commerce", "saas", "startups", "small business", "enterprise"]

/-- `evaluateBalancedProductQuality` from `successscore/index.ts`. -/
def evaluateBalancedProductQuality (tagline : String) : ℤ :=
  if tagline = "" ∨ strLen tagline < 3 then 2
  else
    let taglineLower := lowerStr tagline
    if testIndicators.any (fun w => includesStr taglineLower w) then 5
    else
      let s0 : ℤ := 8
      let s1 := if valueWords.any (fun w => includesStr taglineLower w) then
        s0 + 5 else s0
      let s2 := if solutionWords.any (fun w => includesStr taglineLower w) then
        s1 + 3 else s1
      let s3 :=
        if modernTechWords.any (fun w => includesStr taglineLower w) then
          s2 + 3 else s2
      let s4 := if targetMarkets.any (fun w => includesStr taglineLower w) then
        s3 + 4 else s3
      let s5 :=
        if specificMarkets.any (fun w => includesStr taglineLower w) then
          s4 + 2 else s4
      let s6 := if strLen tagline > 15 ∧ strLen tagline < 100 then s5 + 3
        else s5
      let s7 := if wordCount tagline ≥ 4 then s6 + 2 else s6
      let s8 := if wordCount tagline < 3 then s7 - 2 else s7
      let s9 := if strLen tagline < 10 then s8 - 1 else s8
      min 30 (max 2 s9)

/-- `evaluateBalancedCategoryPerformance` from `successscore/index.ts`. -/
def evaluateBalancedCategoryPerformance (categories : List String)
    (marketData : MarketData) : ℤ :=
  match categories with
  | [] => 8
  | _ :: _ =>
      let multipliers := categories.map
        (fun category => getCategoryMultiplier category marketData)
      let finalMultiplier : ℚ :=
        if categories.length = 1 then multipliers.headI
        else if categories.length = 2 then
          (multipliers.sum / (multipliers.length : ℚ)) * 1.05
        else (multipliers.sum / (multipliers.length : ℚ)) * 1.1
      if finalMultiplier ≥ 1.6 then 20
      else if finalMultiplier ≥ 1.4 then 18
      else if finalMultiplier ≥ 1.2 then 16
      else if finalMultiplier ≥ 1.0 then 12
      else if finalMultiplier ≥ 0.8 then 10
      else if finalMultiplier ≥ 0.6 then 8
      else 6

/-- `evaluateBalancedEfficiency` from `successscore/index.ts`. -/
def evaluateBalancedEfficiency (userBase monthlyTraffic monthlyCost : ℕ) :
    ℤ :=
  if monthlyCost ≤ 0 then 8
  else if userBase ≤ 0 ∧ monthlyTraffic ≤ 0 then 2
  else
    let totalTraction : ℚ := (userBase : ℚ) + (monthlyTraffic : ℚ) / 10
    let efficiency : ℚ := totalTraction / (monthlyCost : ℚ)
    if efficiency > 10 then 10
    else if efficiency > 5 then 8
    else if efficiency > 2 then 6
    else if efficiency > 0.5 then 4
    else if efficiency > 0.1 then 3
    else 2

/-- `calculateMarketBasedScore`, the deterministic rule-based fallback
scorer.  All sub-scores and adjustments are integers, so the final JS
`Math.round` is the identity and the result is modelled in `ℤ`. -/
def calculateMarketBasedScore (formData : Submission)
    (marketData : MarketData) : ℤ :=
  let userBase := formData.user_base
  let monthlyTraffic := formData.traffic
  let monthlyCost := formData.monthly_cost
  let categories := formData.categories
  let tagline := formData.tagline
  let userScore := calculateBalancedTractionScore userBase
    userScoreThresholds
  let trafficScore := calculateBalancedTractionScore monthlyTraffic
    trafficScoreThresholds
  let traction := userScore + trafficScore
  let product := evaluateBalancedProductQuality tagline
  let category := evaluateBalancedCategoryPerformance categories marketData
  let efficiency :=
    evaluateBalancedEfficiency userBase monthlyTraffic monthlyCost
  let baseScore := traction + product + category + efficiency
  let f1 := if tagline = "" ∨ strLen tagline < 5 then baseScore - 5
    else baseScore
  let f2 := if userBase = 0 ∧ monthlyTraffic = 0 then f1 - 8 else f1
  let f3 := if hasTestIndicator tagline then min f2 15 else f2
  let f4 :=
    if tagline ≠ "" ∧ strLen tagline > 3 then max f3 5
    else if userBase > 0 ∨ monthlyTraffic > 0 then max f3 3
    else max f3 1
  min 100 (max 1 f4)

/-- Leftmost match of the regex `/Score: (\d+)/`: position where
`"Score: "` is followed by at least one digit; the captured group is the
maximal digit run there. -/
def parseDigits (l : List Char) : ℕ :=
  l.foldl (fun a c => a * 10 + (c.toNat - 48)) 0

def scorePattern : List Char := "Score: ".data

def findScore : List Char → Option ℕ
  | [] => none
  | c :: cs =>
      if listStartsWith scorePattern (c :: cs) then
        let ds := ((c :: cs).drop scorePattern.length).takeWhile Char.isDigit
        if ds.isEmpty then findScore cs else some (parseDigits ds)
      else findScore cs

/-- `interpretResponse` from `successscore/index.ts`: parsed capture of
`Score: <digits>`, defaulting to `50` when the pattern does not match. -/
def interpretResponse (responseText : String) : ℤ :=
  match findScore responseText.data with
  | some n => (n : ℤ)
  | none => 50

/-- Outcome of the external text-scoring oracle call as observed by
`getSuccessScoreFromChatGPT`: missing `OPENAI_API_KEY`, a thrown error
(non-success HTTP status or transport failure), or a successful response
with the given completion text. -/
inductive OracleOutcome where
  | noApiKey : OracleOutcome
  | httpFailure : OracleOutcome
  | ok : String → OracleOutcome
deriving DecidableEq

/-- `getSuccessScoreFromChatGPT`: missing credentials and thrown errors fall
back to `calculateMarketBasedScore`; a successful response is passed to
`interpretResponse` and returned as-is. -/
def getSuccessScoreFromChatGPT (oracle : OracleOutcome)
    (formData : Submission) (marketData : MarketData) : ℤ :=
  match oracle with
  | .noApiKey => calculateMarketBasedScore formData marketData
  | .httpFailure => calculateMarketBasedScore formData marketData
  | .ok text => interpretResponse text

/-- Response body of the POST handler in `successscore/index.ts` on its
normal path. -/
structure ApiResponse where
  successScore : ℤ
  estimatedValuation : ℤ
  isMaxValuation : Bool
  rangeLow : ℤ
  rangeHigh : ℤ
deriving DecidableEq

/-- Normal (HTTP 200) path of the `successscore` POST handler. -/
def successScoreHandler (oracle : OracleOutcome) (formData : Submission)
    (marketData : MarketData) : ApiResponse :=
  let successScore := getSuccessScoreFromChatGPT oracle formData marketData
  let valuationResult := getEstimatedValuation formData marketData
  { successScore := successScore
    estimatedValuation := valuationResult.valuation
    isMaxValuation := valuationResult.isMaxValuation
    rangeLow := jround ((valuationResult.valuation : ℚ) * 0.7)
    rangeHigh := jround ((valuationResult.valuation : ℚ) * 1.3) }

/-- Optional per-listing metrics block of a Little Exits project record. -/
structure ListingMetrics where
  users : Option ℚ
  traffic : Option ℚ
  revenue : Option ℚ
deriving DecidableEq

/-- A marketplace listing record (`LittleExitsProject` in
`market-analysis/index.ts`). -/
structure LittleExitsProject where
  title : String
  description : String
  price : ℚ
  categories : List String
  listing_main_category : Option String
  category : Option String
  metrics : Option ListingMetrics
  sold : Bool
deriving DecidableEq

/-- `p.metrics?.traffic` with optional chaining flattened. -/
def trafficOf (p : LittleExitsProject) : Option ℚ :=
  match p.metrics with
  | some m => m.traffic
  | none => none

/-- `p.metrics?.users` with optional chaining flattened. -/
def usersOf (p : LittleExitsProject) : Option ℚ :=
  match p.metrics with
  | some m => m.users
  | none => none

/-- JS truthiness of `c && c.trim()` on an optional category field: present
and non-empty after trimming, yielding the trimmed name. -/
def trimmedCat : Option String → Option String
  | some c => if trimStr c = "" then none else some (trimStr c)
  | none => none

/-- Weighted category contributions of one project, in the order the two
`forEach` passes of `analyzeCategoryPerformance` visit them: the specific
`category` field at weight 1.0, each entry of the legacy `categories` array
at 0.8, and the broad `listing_main_category` at 0.3. -/
def projectCats (p : LittleExitsProject) : List (String × ℚ) :=
  (match trimmedCat p.category with
   | some c => [(c, (1.0 : ℚ))]
   | none => []) ++
  (p.categories.filterMap (fun c =>
    match trimmedCat (some c) with
    | some c2 => some (c2, (0.8 : ℚ))
    | none => none)) ++
  (match trimmedCat p.listing_main_category with
   | some c => [(c, (0.3 : ℚ))]
   | none => [])

/-- Per-category accumulator of `analyzeCategoryPerformance`. -/
structure CatStats where
  total : ℚ
  sold : ℚ
  avgPrice : ℚ
  weight : ℚ
deriving DecidableEq

/-- Insert-or-update on a JS-object-like association list, preserving
insertion order; a missing key is appended with `f` applied to the default
`d`. -/
def upsert {β : Type} (k : String) (f : β → β) (d : β) :
    List (String × β) → List (String × β)
  | [] => [(k, f d)]
  | (k1, v) :: rest =>
      if k1 = k then (k1, f v) :: rest else (k1, v) :: upsert k f d rest

/-- Update a key only when present (the `if (categoryStats[category])`
guard of the sold passes). -/
def adjust {β : Type} (k : String) (f : β → β) :
    List (String × β) → List (String × β)
  | [] => []
  | (k1, v) :: rest =>
      if k1 = k then (k1, f v) :: rest else (k1, v) :: adjust k f rest

/-- `addCategory` helper of `analyzeCategoryPerformance`. -/
def addCategory (m : List (String × CatStats)) (category : String)
    (weight : ℚ) : List (String × CatStats) :=
  upsert category
    (fun s => { s with total := s.total + weight, weight := s.weight + weight })
    ⟨0, 0, 0, 0⟩ m

/-- `updateSoldStats` helper of `analyzeCategoryPerformance`. -/
def updateSoldStats (m : List (String × CatStats)) (category : String)
    (weight price : ℚ) : List (String × CatStats) :=
  adjust category
    (fun s => { s with sold := s.sold + weight,
                       avgPrice := s.avgPrice + price * weight }) m

/-- Flattened contribution stream of the first `forEach` pass. -/
def allContributions (ps : List LittleExitsProject) : List (String × ℚ) :=
  (ps.map projectCats).flatten

/-- Flattened contribution stream of the sold pass, carrying each project's
price. -/
def soldContributions (ps : List LittleExitsProject) :
    List (String × ℚ × ℚ) :=
  (ps.map (fun p => (projectCats p).map (fun cw => (cw.1, cw.2, p.price)))).flatten

/-- Category statistics after both passes of
`analyzeCategoryPerformance`. -/
def categoryStatsOf (allProjects soldProjects : List LittleExitsProject) :
    List (String × CatStats) :=
  let pass1 := (allContributions allProjects).foldl
    (fun m cw => addCategory m cw.1 cw.2) []
  (soldContributions soldProjects).foldl
    (fun m cwp => updateSoldStats m cwp.1 cwp.2.1 cwp.2.2) pass1

/-- Multiplier formula of `analyzeCategoryPerformance` for one category's
accumulated statistics. -/
def catMultiplier (s : CatStats) : ℚ :=
  let successRate := s.sold / s.total
  let avgPrice := s.avgPrice / max s.sold 1
  let m1 := 0.8 + successRate * 0.8
  let m2 := m1 + min (s.weight / s.total) 1.0 * 0.2
  let m3 :=
    if avgPrice > 20000 then m2 + 0.2
    else if avgPrice > 10000 then m2 + 0.1
    else if avgPrice < 5000 then m2 - 0.1
    else m2
  round1 (max 0.6 (min 2.0 m3))

/-- `analyzeCategoryPerformance` from `market-analysis/index.ts`: categories
with accumulated weight at least 3 are mapped to their multiplier. -/
def analyzeCategoryPerformance
    (allProjects soldProjects : List LittleExitsProject) :
    List (String × ℚ) :=
  (categoryStatsOf allProjects soldProjects).filterMap
    (fun ks => if ks.2.weight ≥ 3 then some (ks.1, catMultiplier ks.2)
      else none)

/-- Aggregate per-unit metrics block of the calibration builder. -/
structure MarketMetrics where
  avgRevenueMultiple : ℚ
  avgProfitMultiple : ℚ
  avgTrafficValue : ℚ
  avgCommunityValue : ℚ
deriving DecidableEq

/-- `p.metrics?.traffic && p.metrics.traffic > 0` (a present zero is falsy
either way). -/
def hasPositiveTraffic (p : LittleExitsProject) : Bool :=
  match trafficOf p with
  | some tr => decide (tr > 0)
  | none => false

/-- `p.metrics?.users && p.metrics.users > 0`. -/
def hasPositiveUsers (p : LittleExitsProject) : Bool :=
  match usersOf p with
  | some u => decide (u > 0)
  | none => false

/-- `calculateMarketMetrics` from `market-analysis/index.ts`: plain averages
of `price/traffic` and `price/users` over sold projects with positive
traffic resp. users — no outlier filtering — rounded to 2 decimals, with
defaults `0.1` and `5`. -/
def calculateMarketMetrics (soldProjects : List LittleExitsProject) :
    MarketMetrics :=
  if soldProjects.length = 0 then
    { avgRevenueMultiple := 2.5, avgProfitMultiple := 3.0,
      avgTrafficValue := 0.1, avgCommunityValue := 5 }
  else
    let projectsWithTraffic := soldProjects.filter hasPositiveTraffic
    let avgTrafficValue : ℚ :=
      if projectsWithTraffic.length > 0 then
        (projectsWithTraffic.map
          (fun p => p.price / (trafficOf p).getD 0)).sum /
          (projectsWithTraffic.length : ℚ)
      else 0.1
    let projectsWithUsers := soldProjects.filter hasPositiveUsers
    let avgCommunityValue : ℚ :=
      if projectsWithUsers.length > 0 then
        (projectsWithUsers.map
          (fun p => p.price / (usersOf p).getD 0)).sum /
          (projectsWithUsers.length : ℚ)
      else 5
    { avgRevenueMultiple := 2.5, avgProfitMultiple := 3.0,
      avgTrafficValue := round2 avgTrafficValue,
      avgCommunityValue := round2 avgCommunityValue }

/-- Stable insertion into a descending-by-key list: ties keep earlier
elements first, matching JS stable `sort((a, b) => key(b) - key(a))`. -/
def insertByDesc {α : Type} (key : α → ℚ) (x : α) : List α → List α
  | [] => [x]
  | y :: ys => if key y < key x then x :: y :: ys else y :: insertByDesc key x ys

/-- Stable descending sort by a rational key. -/
def sortByDesc {α : Type} (key : α → ℚ) (l : List α) : List α :=
  l.foldl (fun acc x => insertByDesc key x acc) []

/-- Descriptive statistics block of the calibration builder. -/
structure SuccessPatterns where
  topCategories : List String
  avgSoldPrice : ℤ
  avgUserBase : ℤ
  avgTraffic : ℤ
deriving DecidableEq

/-- Truthy `p.metrics?.users` (present and non-zero). -/
def hasUsersField (p : LittleExitsProject) : Bool :=
  match usersOf p with
  | some u => decide (u ≠ 0)
  | none => false

/-- Truthy `p.metrics?.traffic` (present and non-zero). -/
def hasTrafficField (p : LittleExitsProject) : Bool :=
  match trafficOf p with
  | some tr => decide (tr ≠ 0)
  | none => false

/-- `identifySuccessPatterns` from `market-analysis/index.ts`. -/
def identifySuccessPatterns (soldProjects : List LittleExitsProject) :
    SuccessPatterns :=
  if soldProjects.length = 0 then
    { topCategories := ["SaaS", "AI", "E-commerce"], avgSoldPrice := 15000,
      avgUserBase := 2500, avgTraffic := 8000 }
  else
    let categoryCounts : List (String × ℚ) :=
      (allContributions soldProjects).foldl
        (fun m cw => upsert cw.1 (fun v => v + cw.2) 0 m) []
    let topCategories :=
      ((sortByDesc (fun kv => kv.2) categoryCounts).take 10).map (·.1)
    let avgSoldPrice :=
      jround ((soldProjects.map (·.price)).sum /
        (soldProjects.length : ℚ))
    let projectsWithUsers := soldProjects.filter hasUsersField
    let avgUserBase :=
      if projectsWithUsers.length > 0 then
        jround ((projectsWithUsers.map
          (fun p => (usersOf p).getD 0)).sum /
          (projectsWithUsers.length : ℚ))
      else 2500
    let projectsWithTraffic := soldProjects.filter hasTrafficField
    let avgTraffic :=
      if projectsWithTraffic.length > 0 then
        jround ((projectsWithTraffic.map
          (fun p => (trafficOf p).getD 0)).sum /
          (projectsWithTraffic.length : ℚ))
      else 8000
    { topCategories := topCategories, avgSoldPrice := avgSoldPrice,
      avgUserBase := avgUserBase, avgTraffic := avgTraffic }

/-- Per-category accumulator of `analyzeTopPerformers`. -/
structure PerfStats where
  total : ℕ
  soldCount : ℕ
  totalPrice : ℚ
  isMainCategory : Bool
deriving DecidableEq

/-- Umbrella terms that classify a category as "main" in
`analyzeTopPerformers`. -/
def mainCategoryTerms : List String :=
  ["SaaS", "AI", "E-commerce", "Marketplace", "Social", "Analytics",
   "Productivity", "Communication", "Education", "Gaming", "Health",
   "Finance"]

/-- Category names of one project as gathered by `analyzeTopPerformers`:
`[category, listing_main_category, ...categories]`, truthy-filtered and
trimmed. -/
def perfCats (p : LittleExitsProject) : List String :=
  ((match p.category with | some c => [c] | none => []) ++
   (match p.listing_main_category with | some c => [c] | none => []) ++
   p.categories).filterMap (fun c =>
    if trimStr c = "" then none else some (trimStr c))

/-- Initial `PerfStats` entry, classifying the category on first sight. -/
def initPerf (cat : String) : PerfStats :=
  { total := 0, soldCount := 0, totalPrice := 0,
    isMainCategory := mainCategoryTerms.any
      (fun term => includesStr (lowerStr cat) (lowerStr term)) }

/-- Category statistics after both passes of `analyzeTopPerformers`. -/
def perfStatsOf (allProjects soldProjects : List LittleExitsProject) :
    List (String × PerfStats) :=
  let pass1 := ((allProjects.map perfCats).flatten).foldl
    (fun m c => upsert c (fun s => { s with total := s.total + 1 })
      (initPerf c) m) []
  ((soldProjects.map (fun p => (perfCats p).map (fun c => (c, p.price)))).flatten).foldl
    (fun m cp => adjust cp.1
      (fun s => { s with soldCount := s.soldCount + 1,
                         totalPrice := s.totalPrice + cp.2 }) m) pass1

/-- Ranked category entry of `topPerformers`. -/
structure CatPerf where
  name : String
  successRate : ℚ
  avgPrice : ℤ
  projects : ℕ
deriving DecidableEq

/-- `processCategories` inside `analyzeTopPerformers`: keep one class of
categories with at least 3 listings, rank by `successRate × avgPrice`, top
5. -/
def processCategories (stats : List (String × PerfStats)) (isMain : Bool) :
    List CatPerf :=
  (sortByDesc (fun c => c.successRate * (c.avgPrice : ℚ))
    ((stats.filter (fun ks =>
        ks.2.isMainCategory == isMain && decide (ks.2.total ≥ 3))).map
      (fun ks =>
        { name := ks.1,
          successRate := round2 ((ks.2.soldCount : ℚ) / (ks.2.total : ℚ)),
          avgPrice := jround (ks.2.totalPrice /
            (max ks.2.soldCount 1 : ℕ)),
          projects := ks.2.total }))).take 5

/-- Lowercase ASCII letter test (the regex class `[a-z]`). -/
def lcLetter (c : Char) : Bool := 'a' ≤ c && c ≤ 'z'

/-- JS regex word character `\w` = `[A-Za-z0-9_]`. -/
def wordChar (c : Char) : Bool :=
  ('a' ≤ c && c ≤ 'z') || ('A' ≤ c && c ≤ 'Z') ||
  ('0' ≤ c && c ≤ '9') || c == '_'

/-- Is a maximal character group a `\b[a-z]{3,}\b` token, given the
characters adjacent to it? -/
def isTokenGroup (prev : Option Char) (g : List Char) (next : Option Char) :
    Bool :=
  (match g with | c :: _ => lcLetter c | [] => false) &&
  decide (g.length ≥ 3) &&
  (match prev with | some p => !wordChar p | none => true) &&
  (match next with | some n => !wordChar n | none => true)

/-- Select the token groups from the list of maximal same-letterness runs,
tracking the character that precedes each run. -/
def pickTokens (prev : Option Char) : List (List Char) → List (List Char)
  | [] => []
  | g :: gs =>
      let next := match gs with
        | g2 :: _ => g2.head?
        | [] => none
      let rest := pickTokens (g.getLast?.orElse (fun _ => prev)) gs
      if isTokenGroup prev g next then g :: rest else rest

/-- All matches of `/\b[a-z]{3,}\b/g` over a character list. -/
def matchWords (text : List Char) : List String :=
  (pickTokens none
    (text.splitBy (fun a b => lcLetter a == lcLetter b))).map
    (fun g => String.mk g)

/-- Per-word accumulator of the keyword analysis. -/
structure KwStats where
  count : ℕ
  totalPrice : ℚ
  soldCount : ℕ
deriving DecidableEq

/-- Ranked keyword entry of `topPerformers`. -/
structure Keyword where
  word : String
  frequency : ℕ
  avgPrice : ℤ
deriving DecidableEq

/-- Keyword statistics over the sold projects' titles and descriptions. -/
def keywordCountsOf (soldProjects : List LittleExitsProject) :
    List (String × KwStats) :=
  ((soldProjects.map (fun p =>
    (matchWords (lowerStr (p.title ++ " " ++ p.description)).data).map
      (fun w => (w, p.price)))).flatten).foldl
    (fun m wp => upsert wp.1
      (fun s => { count := s.count + 1,
                  totalPrice := s.totalPrice + wp.2,
                  soldCount := s.soldCount + 1 }) ⟨0, 0, 0⟩ m) []

/-- Top-10 keywords with frequency at least 5, ranked by
`frequency × avgPrice`. -/
def topKeywordsOf (soldProjects : List LittleExitsProject) : List Keyword :=
  (sortByDesc (fun k => (k.frequency : ℚ) * (k.avgPrice : ℚ))
    (((keywordCountsOf soldProjects).filter
        (fun ws => decide (ws.2.count ≥ 5))).map
      (fun ws =>
        { word := ws.1, frequency := ws.2.count,
          avgPrice := jround (ws.2.totalPrice / (ws.2.soldCount : ℚ)) }))).take
    10

/-- `topPerformers` block of the calibration builder. -/
structure TopPerformers where
  mainCategories : List CatPerf
  specificCategories : List CatPerf
  keywords : List Keyword
deriving DecidableEq

/-- `analyzeTopPerformers` from `market-analysis/index.ts`. -/
def analyzeTopPerformers (allProjects soldProjects : List LittleExitsProject) :
    TopPerformers :=
  let stats := perfStatsOf allProjects soldProjects
  { mainCategories := processCategories stats true
    specificCategories := processCategories stats false
    keywords := topKeywordsOf soldProjects }

/-- The full `MarketData` artifact produced by the calibration builder. -/
structure MarketDataFull where
  lastUpdated : String
  totalProjects : ℕ
  soldProjects : ℕ
  categoryMultipliers : List (String × ℚ)
  avgRevenueMultiple : ℚ
  avgProfitMultiple : ℚ
  avgTrafficValue : ℚ
  avgCommunityValue : ℚ
  successPatterns : SuccessPatterns
  topPerformers : TopPerformers
deriving DecidableEq

/-- `analyzeMarketData` from `market-analysis/index.ts`, as a function of
the fetched project batch and of the wall-clock timestamp `now` that the
code reads via `new Date().toISOString()`. -/
def analyzeMarketData (allProjects : List LittleExitsProject) (now : String) :
    MarketDataFull :=
  let soldProjects := allProjects.filter (·.sold)
  let metrics := calculateMarketMetrics soldProjects
  { lastUpdated := now
    totalProjects := allProjects.length
    soldProjects := soldProjects.length
    categoryMultipliers := analyzeCategoryPerformance allProjects soldProjects
    avgRevenueMultiple := metrics.avgRevenueMultiple
    avgProfitMultiple := metrics.avgProfitMultiple
    avgTrafficValue := metrics.avgTrafficValue
    avgCommunityValue := metrics.avgCommunityValue
    successPatterns := identifySuccessPatterns soldProjects
    topPerformers := analyzeTopPerformers allProjects soldProjects }

/-- JS `o || d` on an optional string: the default replaces both an absent
and an empty value. -/
def truthyOr (o : Option String) (d : String) : String :=
  match o with
  | some s => if s = "" then d else s
  | none => d

/-- Result of a POST on the market-analysis recompute endpoint: HTTP status
and the profile written to the store, if any. -/
structure PostResult where
  status : ℕ
  stored : Option MarketDataFull
deriving DecidableEq

/-- POST branch of the authenticated `market-analysis` handler: the
`Authorization` header must equal `Bearer ` + `CRON_SECRET` (defaulting to
`missing-secret` when the variable is unset); any mismatch — including an
absent header — is rejected with 401 before any recompute or write. -/
def marketAnalysisPost (authHeader : Option String)
    (cronSecret : Option String) (allProjects : List LittleExitsProject)
    (now : String) : PostResult :=
  let expectedAuth := "Bearer " ++ truthyOr cronSecret "missing-secret"
  if authHeader ≠ some expectedAuth then
    { status := 401, stored := none }
  else
    { status := 200, stored := some (analyzeMarketData allProjects now) }

/-- POST branch of the legacy `market-analysis` handler (the variant under
`src/pages/api/market-analysis/index.ts`): it recomputes and stores without
reading the `Authorization` header at all. -/
def legacyMarketAnalysisPost (_authHeader : Option String)
    (allProjects : List LittleExitsProject) (now : String) : PostResult :=
  { status := 200, stored := some (analyzeMarketData allProjects now) }

/-- Per-category accumulator of the update script's
`generateCategoryMultipliers`. -/
structure ScriptCatStats where
  total : ℚ
  soldCount : ℚ
  totalPrice : ℚ
deriving DecidableEq

/-- `project.category || project.listing_main_category || 'Other'` in
`update-market-data.js`. -/
def scriptCategoryOf (p : LittleExitsProject) : String :=
  truthyOr p.category (truthyOr p.listing_main_category "Other")

/-- Multiplier formula of the update script (no clamp; success rate plus a
price bump, rounded to one decimal). -/
def scriptMultiplier (s : ScriptCatStats) : ℚ :=
  let successRate := s.soldCount / s.total
  let avgPrice := s.totalPrice / max s.soldCount 1
  let m1 := 0.8 + successRate * 0.8
  let m2 :=
    if avgPrice > 10000 then m1 + 0.2
    else if avgPrice > 5000 then m1 + 0.1
    else m1
  round1 m2

/-- `generateCategoryMultipliers` from `scripts/update-market-data.js`: one
unweighted count per project under its first truthy category, threshold 5. -/
def generateCategoryMultipliers
    (allProjects soldProjects : List LittleExitsProject) :
    List (String × ℚ) :=
  let stats1 := allProjects.foldl
    (fun m p => upsert (scriptCategoryOf p)
      (fun s => { s with total := s.total + 1 }) ⟨0, 0, 0⟩ m) []
  let stats2 := soldProjects.foldl
    (fun m p => adjust (scriptCategoryOf p)
      (fun s => { s with soldCount := s.soldCount + 1,
                         totalPrice := s.totalPrice + p.price }) m) stats1
  stats2.filterMap (fun ks =>
    if ks.2.total ≥ 5 then some (ks.1, scriptMultiplier ks.2) else none)

/-- A record of the `analyze-success-patterns` endpoint (part of the
repository's lineage), with the Airtable-style field names flattened. -/
structure PatternsProject where
  priceHigh : Option ℚ
  priceLow : Option ℚ
  mrr : Option ℚ
  netProfit : Option ℚ
  communitySize : Option ℚ
  monthlyTrafficUV : Option ℚ
deriving DecidableEq

/-- JS `x || 0` on an optional number (zero stays zero). -/
def numOrZero (o : Option ℚ) : ℚ :=
  match o with
  | some x => x
  | none => 0

/-- `p['Price (high)'] || p['Price (low)'] || 0`. -/
def patternsPrice (p : PatternsProject) : ℚ :=
  match p.priceHigh with
  | some x => if x = 0 then numOrZero p.priceLow else x
  | none => numOrZero p.priceLow

/-- Traffic-value part of `calculateValuationMetrics` in
`analyze-success-patterns.ts`: per-listing `price/traffic` ratios with
outliers outside `(0, 50)` dropped, averaged and rounded to two decimals,
default `0.1`. -/
def valuationMetricsTrafficValue (soldProjects : List PatternsProject) : ℚ :=
  let trafficValues := soldProjects.filterMap (fun p =>
    let price := patternsPrice p
    let traffic := numOrZero p.monthlyTrafficUV
    if 0 < price ∧ 0 < traffic then
      let valuePerVisitor := price / traffic
      if 0 < valuePerVisitor ∧ valuePerVisitor < 50 then some valuePerVisitor
      else none
    else none)
  if trafficValues.length > 0 then
    round2 (trafficValues.sum / (trafficValues.length : ℚ))
  else 0.1

/-- Community-value part of `calculateValuationMetrics`: same procedure over
`price/communitySize` with outlier bound `(0, 100)`, default `5`. -/
def valuationMetricsCommunityValue (soldProjects : List PatternsProject) :
    ℚ :=
  let communityValues := soldProjects.filterMap (fun p =>
    let price := patternsPrice p
    let community := numOrZero p.communitySize
    if 0 < price ∧ 0 < community then
      let valuePerMember := price / community
      if 0 < valuePerMember ∧ valuePerMember < 100 then some valuePerMember
      else none
    else none)
  if communityValues.length > 0 then
    round2 (communityValues.sum / (communityValues.length : ℚ))
  else 5

/-- Procedure claimed by the spec for the Calibration Builder's
`avgTrafficValue` (outlier-filtered average of `price/traffic` over sold
listings with positive traffic, rounded to two decimals, default `0.1`);
stated over the builder's own record type for comparison with
`calculateMarketMetrics`. -/
def specAvgTrafficValue (soldProjects : List LittleExitsProject) : ℚ :=
  let ratios := (soldProjects.filter hasPositiveTraffic).map
    (fun p => p.price / (trafficOf p).getD 0)
  let kept := ratios.filter (fun r => decide (0 < r ∧ r < 50))
  if kept.length > 0 then round2 (kept.sum / (kept.length : ℚ)) else 0.1

/-- Procedure claimed by the spec for `avgCommunityValue` (outlier bound
`(0, 100)`, default `5`). -/
def specAvgCommunityValue (soldProjects : List LittleExitsProject) : ℚ :=
  let ratios := (soldProjects.filter hasPositiveUsers).map
    (fun p => p.price / (usersOf p).getD 0)
  let kept := ratios.filter (fun r => decide (0 < r ∧ r < 100))
  if kept.length > 0 then round2 (kept.sum / (kept.length : ℚ)) else 5

/-- Accumulated weighted total of one category over a project batch, as the
claim describes it: 1.0 per specific-category occurrence, 0.8 per
legacy-list entry, 0.3 per broad main-category occurrence. -/
def weightedTotal (allProjects : List LittleExitsProject) (c : String) : ℚ :=
  (((allContributions allProjects).filter (fun cw => cw.1 == c)).map
    (fun cw => cw.2)).sum

/-- Concrete submission with no data at all (used as a test vector). -/
def emptySubmission : Submission :=
  { tagline := "", user_base := 0, traffic := 0, monthly_cost := 0,
    categories := [] }

/-- Test vector: traffic-to-user ratio just above 10. -/
def submissionLow : Submission :=
  { tagline := "", user_base := 2999, traffic := 30000, monthly_cost := 0,
    categories := [] }

/-- Test vector identical to `submissionLow` except for a strictly larger
user base (ratio drops just below 10). -/
def submissionHigh : Submission :=
  { tagline := "", user_base := 3001, traffic := 30000, monthly_cost := 0,
    categories := [] }

/-- Test vector with a large user base (exceeds the ceiling on the
error-fallback path). -/
def submissionBig : Submission :=
  { tagline := "", user_base := 100000, traffic := 0, monthly_cost := 0,
    categories := [] }

/-- Sold listing whose price/traffic ratio (100) lies outside the spec's
outlier band `(0, 50)`. -/
def outlierListing : LittleExitsProject :=
  { title := "", description := "", price := 10000, categories := [],
    listing_main_category := none, category := none,
    metrics := some { users := none, traffic := some 100, revenue := none },
    sold := true }

/-- Unfiltered counterpart of `specAvgTrafficValue`: what
`calculateMarketMetrics` actually computes for `avgTrafficValue` (average of
all positive-traffic ratios, no outlier band, rounded to two decimals,
default `0.1`). -/
def unfilteredAvgTrafficValue (soldProjects : List LittleExitsProject) : ℚ :=
  let ratios := soldProjects.filterMap (fun p =>
    match trafficOf p with
    | some tr => if 0 < tr then some (p.price / tr) else none
    | none => none)
  if ratios.length > 0 then round2 (ratios.sum / (ratios.length : ℚ))
  else 0.1

/-- Unfiltered counterpart of `specAvgCommunityValue`. -/
def unfilteredAvgCommunityValue (soldProjects : List LittleExitsProject) :
    ℚ :=
  let ratios := soldProjects.filterMap (fun p =>
    match usersOf p with
    | some u => if 0 < u then some (p.price / u) else none
    | none => none)
  if ratios.length > 0 then round2 (ratios.sum / (ratios.length : ℚ))
  else 5

/-- Sortedness of a traction tier table: every tier's points are
non-negative and bound the points of all later tiers. -/
def tableMonoB : List (ℕ × ℤ) → Bool
  | [] => true
  | (_, p) :: rest =>
      decide (0 ≤ p) && rest.all (fun q => decide (q.2 ≤ p)) && tableMonoB rest

/-- Keys of a JS-object-like association list, in insertion order. -/
def keysOf {β : Type} (m : List (String × β)) : List String := m.map Prod.fst

/-- View of one rational statistic of one key (0 when the key is absent). -/
def statView {β : Type} (g : β → ℚ) (k : String) (m : List (String × β)) :
    ℚ :=
  match List.lookup k m with
  | some v => g v
  | none => 0

/-- Contribution weight accumulated for one key over a contribution
stream. -/
def sumFor (k : String) : List (String × ℚ) → ℚ
  | [] => 0
  | cw :: L => (if cw.1 = k then cw.2 else 0) + sumFor k L

/-- Number of projects filed under a key by the update script (as an exact
rational, mirroring the JS counters). -/
def countFor (k : String) (ps : List LittleExitsProject) : ℚ :=
  sumFor k (ps.map (fun p => (scriptCategoryOf p, (1 : ℚ))))

/-! ## Helper lemmas -/

theorem jround_eq_floor (q : ℚ) : jround q = ⌊q + 1/2⌋ := by
  rw [jround, Rat.floor_def', ← Rat.floor_def]

theorem jround_eq_iff {q : ℚ} {n : ℤ} :
    jround q = n ↔ (n : ℚ) ≤ q + 1/2 ∧ q + 1/2 < n + 1 := by
  rw [jround_eq_floor, Int.floor_eq_iff]

theorem jround_le_jround {q r : ℚ} (h : q ≤ r) : jround q ≤ jround r := by
  rw [jround_eq_floor, jround_eq_floor]
  exact Int.floor_le_floor (by linarith)

theorem jround_zero : jround 0 = 0 := by rw [jround_eq_iff]; norm_num

theorem jround_nonneg {q : ℚ} (h : 0 ≤ q) : 0 ≤ jround q := by
  have := jround_le_jround h
  rwa [jround_zero] at this

/-- Clamping to `[0, 50000]` and rounding keeps the result in
`[0, 50000]`. -/
theorem jround_clamp_bounds (x : ℚ) :
    0 ≤ jround (max 0 (min x maxValuation)) ∧
      jround (max 0 (min x maxValuation)) ≤ 50000 := by
  refine ⟨jround_nonneg (le_max_left _ _), ?_⟩
  have h : max 0 (min x maxValuation) ≤ 50000 := by
    apply max_le
    · norm_num
    · calc min x maxValuation ≤ maxValuation := min_le_right _ _
        _ = 50000 := by norm_num [maxValuation]
  have h2 : jround 50000 = 50000 := by rw [jround_eq_iff]; norm_num
  have := jround_le_jround h
  rwa [h2] at this

/-- One-decimal rounding of a value clamped into `[3/5, 2]` stays in
`[3/5, 2]`. -/
theorem round1_clamp_bounds (x : ℚ) :
    0.6 ≤ round1 (max 0.6 (min 2.0 x)) ∧
      round1 (max 0.6 (min 2.0 x)) ≤ 2 := by
  have h1 : (0.6 : ℚ) ≤ max 0.6 (min 2.0 x) := le_max_left _ _
  have h2 : max 0.6 (min 2.0 x) ≤ 2 := by
    apply max_le
    · norm_num
    · exact le_trans (min_le_left _ _) (by norm_num)
  have e1 : jround 6 = 6 := by rw [jround_eq_iff]; norm_num
  have e2 : jround 20 = 20 := by rw [jround_eq_iff]; norm_num
  have l1 : jround 6 ≤ jround (max 0.6 (min 2.0 x) * 10) :=
    jround_le_jround (by linarith)
  have l2 : jround (max 0.6 (min 2.0 x) * 10) ≤ jround 20 :=
    jround_le_jround (by linarith)
  rw [e1] at l1
  rw [e2] at l2
  constructor
  · rw [round1, le_div_iff₀ (by norm_num)]
    have : (6 : ℚ) ≤ (jround (max 0.6 (min 2.0 x) * 10) : ℚ) := by
      exact_mod_cast l1
    linarith
  · rw [round1, div_le_iff₀ (by norm_num)]
    have : (jround (max 0.6 (min 2.0 x) * 10) : ℚ) ≤ 20 := by
      exact_mod_cast l2
    linarith

/-- Final clamp of the fallback scorer stays in `[1, 100]`. -/
theorem score_clamp_bounds (x : ℤ) :
    1 ≤ min 100 (max 1 x) ∧ min 100 (max 1 x) ≤ 100 :=
  ⟨le_min (by norm_num) (le_max_left _ _), min_le_left _ _⟩

/-! ## Claim theorems -/

/-- C1.  For every submission processed by the valuation endpoint's normal
(non-exception) path, the returned `estimatedValuation` is an integer with
`0 ≤ estimatedValuation ≤ 50000`, and the returned range satisfies
`low = round(0.7 × estimatedValuation)` and
`high = round(1.3 × estimatedValuation)`. -/
theorem valuation_bounds_and_range (oracle : OracleOutcome)
    (formData : Submission) (marketData : MarketData) :
    0 ≤ (successScoreHandler oracle formData marketData).estimatedValuation ∧
    (successScoreHandler oracle formData marketData).estimatedValuation ≤
      50000 ∧
    (successScoreHandler oracle formData marketData).rangeLow =
      jround (0.7 *
        ((successScoreHandler oracle formData marketData).estimatedValuation :
          ℚ)) ∧
    (successScoreHandler oracle formData marketData).rangeHigh =
      jround (1.3 *
        ((successScoreHandler oracle formData marketData).estimatedValuation :
          ℚ)) := by
  simp only [successScoreHandler, getEstimatedValuation]
  refine ⟨(jround_clamp_bounds _).1, (jround_clamp_bounds _).2, ?_, ?_⟩
  · rw [mul_comm]
  · rw [mul_comm]

/-- C2 counterexample.  The oracle path returns the parsed score without
clamping it into `[1, 100]`: a response of `"Score: 150"` yields 150. -/
theorem oracle_score_not_clamped :
    getSuccessScoreFromChatGPT (.ok "Score: 150") emptySubmission
        defaultMarketData = 150 ∧
    ¬(getSuccessScoreFromChatGPT (.ok "Score: 150") emptySubmission
        defaultMarketData ≤ 100) := by
  constructor
  · decide
  · decide

/-- C2 amended.  The rule-based fallback score is always an integer in
`[1, 100]`; on the oracle path the integer parsed from the response text is
returned as-is (no clamping), with the constant `50` when the pattern does
not parse. -/
theorem fallback_score_bounds_oracle_passthrough :
    (∀ (formData : Submission) (marketData : MarketData),
      1 ≤ calculateMarketBasedScore formData marketData ∧
      calculateMarketBasedScore formData marketData ≤ 100) ∧
    (∀ (formData : Submission) (marketData : MarketData) (text : String),
      getSuccessScoreFromChatGPT (.ok text) formData marketData =
        interpretResponse text) := by
  constructor
  · intro formData marketData
    exact score_clamp_bounds _
  · intro formData marketData text
    rfl

/-- C3 counterexample.  A successfully fetched oracle response with no
parseable `Score:` pattern yields the constant 50, not the rule-based
fallback score (which is 9 for the empty submission). -/
theorem unparseable_response_not_fallback :
    getSuccessScoreFromChatGPT (.ok "hello") emptySubmission
        defaultMarketData = 50 ∧
    calculateMarketBasedScore emptySubmission defaultMarketData = 9 ∧
    (50 : ℤ) ≠ 9 := by
  refine ⟨?_, ?_, ?_⟩ <;> decide

/-- C3 amended.  Missing credentials and thrown oracle errors (non-success
HTTP status, transport failure) deterministically return the rule-based
fallback score; a successfully fetched response in which the
`Score: <integer>` pattern does not occur yields the constant 50 instead of
the fallback. -/
theorem oracle_failure_fallback_behavior (formData : Submission)
    (marketData : MarketData) :
    getSuccessScoreFromChatGPT .noApiKey formData marketData =
      calculateMarketBasedScore formData marketData ∧
    getSuccessScoreFromChatGPT .httpFailure formData marketData =
      calculateMarketBasedScore formData marketData ∧
    ∀ text : String, findScore text.data = none →
      getSuccessScoreFromChatGPT (.ok text) formData marketData = 50 := by
  refine ⟨rfl, rfl, ?_⟩
  intro text h
  show interpretResponse text = 50
  rw [interpretResponse, h]

/-- C3 witness. -/
theorem oracle_failure_fallback_behavior_witness :
    getSuccessScoreFromChatGPT .noApiKey emptySubmission defaultMarketData =
      calculateMarketBasedScore emptySubmission defaultMarketData ∧
    getSuccessScoreFromChatGPT (.ok "hello") emptySubmission
        defaultMarketData = 50 :=
  ⟨(oracle_failure_fallback_behavior emptySubmission defaultMarketData).1,
   (oracle_failure_fallback_behavior emptySubmission defaultMarketData).2.2
     "hello" (by decide)⟩

/-- C10.  The error-fallback path of `getEstimatedValuation` returns
`round(max(userBase × 1.5 + monthlyTraffic × 0.03, 500))` with
`isMaxValuation` always `false`; the result is always at least 500, is not
clamped to the 50000 ceiling, and can exceed the ceiling while still
reporting `isMaxValuation = false`. -/
theorem error_fallback_unclamped :
    (∀ formData : Submission,
      (getEstimatedValuationFallback formData).valuation =
        jround (max ((formData.user_base : ℚ) * 1.5 +
          (formData.traffic : ℚ) * 0.03) 500) ∧
      500 ≤ (getEstimatedValuationFallback formData).valuation ∧
      (getEstimatedValuationFallback formData).isMaxValuation = false) ∧
    (getEstimatedValuationFallback submissionBig).valuation > 50000 ∧
    (getEstimatedValuationFallback submissionBig).isMaxValuation = false := by
  have h500 : jround 500 = 500 := by rw [jround_eq_iff]; norm_num
  refine ⟨fun formData => ⟨rfl, ?_, rfl⟩, ?_, rfl⟩
  · have hle : (500 : ℚ) ≤ max ((formData.user_base : ℚ) * 1.5 +
        (formData.traffic : ℚ) * 0.03) 500 := le_max_right _ _
    have := jround_le_jround hle
    rw [h500] at this
    exact this
  · show jround (max ((100000 : ℕ) * (1.5 : ℚ) + (0 : ℕ) * (0.03 : ℚ)) 500) >
      50000
    have : max ((100000 : ℕ) * (1.5 : ℚ) + (0 : ℕ) * (0.03 : ℚ)) 500 =
        150000 := by
      rw [max_eq_left] <;> push_cast <;> norm_num
    rw [this]
    have h2 : jround (150000 : ℚ) = 150000 := by rw [jround_eq_iff]; norm_num
    rw [h2]
    norm_num

theorem cbts_le_bound (v : ℕ) (tbl : List (ℕ × ℤ)) (B : ℤ)
    (hB : 0 ≤ B) (h : ∀ q ∈ tbl, q.2 ≤ B) (hm : tableMonoB tbl = true) :
    calculateBalancedTractionScore v tbl ≤ B := by
  induction tbl with
  | nil => simpa [calculateBalancedTractionScore] using hB
  | cons hd rest ih =>
      obtain ⟨q, p⟩ := hd
      simp only [tableMonoB, Bool.and_eq_true, List.all_eq_true,
        decide_eq_true_eq] at hm
      simp only [calculateBalancedTractionScore]
      split_ifs
      · exact h (q, p) (by simp)
      · exact ih (fun x hx => h x (List.mem_cons_of_mem _ hx)) hm.2

/-- The tier lookup of `calculateBalancedTractionScore` is monotone in the
looked-up value for any sorted tier table. -/
theorem cbts_mono {v v' : ℕ} (tbl : List (ℕ × ℤ)) (hvv : v ≤ v')
    (hm : tableMonoB tbl = true) :
    calculateBalancedTractionScore v tbl ≤
      calculateBalancedTractionScore v' tbl := by
  induction tbl with
  | nil => simp [calculateBalancedTractionScore]
  | cons hd rest ih =>
      obtain ⟨q, p⟩ := hd
      simp only [tableMonoB, Bool.and_eq_true, List.all_eq_true,
        decide_eq_true_eq] at hm
      simp only [calculateBalancedTractionScore]
      by_cases h1 : v ≥ q
      · rw [if_pos h1, if_pos (le_trans h1 hvv)]
      · rw [if_neg h1]
        by_cases h2 : v' ≥ q
        · rw [if_pos h2]
          exact cbts_le_bound v rest p hm.1.1 hm.1.2 hm.2
        · rw [if_neg h2]
          exact ih hm.2

theorem userTable_mono : tableMonoB userScoreThresholds = true := by decide

theorem trafficTable_mono : tableMonoB trafficScoreThresholds = true := by
  decide

set_option maxHeartbeats 1000000 in
theorem userBaseValue_mono {u u' : ℕ} (h : u ≤ u') :
    userBaseValue u ≤ userBaseValue u' := by
  have hc : (u : ℚ) ≤ (u' : ℚ) := by exact_mod_cast h
  have h0 : (0 : ℚ) ≤ (u : ℚ) := by positivity
  have h0' : (0 : ℚ) ≤ (u' : ℚ) := by positivity
  unfold userBaseValue
  split_ifs <;> first | (exfalso; omega) | linarith

set_option maxHeartbeats 1000000 in
theorem trafficTierValue_mono {t t' : ℕ} (h : t ≤ t') :
    trafficTierValue t ≤ trafficTierValue t' := by
  have hc : (t : ℚ) ≤ (t' : ℚ) := by exact_mod_cast h
  have h0 : (0 : ℚ) ≤ (t : ℚ) := by positivity
  have h0' : (0 : ℚ) ≤ (t' : ℚ) := by positivity
  unfold trafficTierValue
  split_ifs <;> first | (exfalso; omega) | linarith

theorem revenuePotentialValue_mono {u u' : ℕ} (h : u ≤ u') :
    revenuePotentialValue u ≤ revenuePotentialValue u' := by
  have hc : (u : ℚ) ≤ (u' : ℚ) := by exact_mod_cast h
  have hm : max ((u : ℚ) * 0.01) 0 ≤ max ((u' : ℚ) * 0.01) 0 :=
    max_le_max (by linarith) le_rfl
  simp only [revenuePotentialValue]
  split_ifs with h1 h2
  · linarith
  · exact absurd (lt_of_lt_of_le h1 hm) h2
  · positivity
  · exact le_rfl

set_option maxHeartbeats 1000000 in
theorem efficiency_mono {u u' t t' c : ℕ} (hu : u ≤ u') (ht : t ≤ t') :
    evaluateBalancedEfficiency u t c ≤
      evaluateBalancedEfficiency u' t' c := by
  simp only [evaluateBalancedEfficiency]
  rcases Nat.eq_zero_or_pos c with hc | hc
  · subst hc; norm_num
  · have hcq : (0 : ℚ) < (c : ℚ) := by exact_mod_cast hc
    have hE : ((u : ℚ) + (t : ℚ) / 10) / (c : ℚ) ≤
        ((u' : ℚ) + (t' : ℚ) / 10) / (c : ℚ) := by
      have h1 : (u : ℚ) ≤ (u' : ℚ) := by exact_mod_cast hu
      have h2 : (t : ℚ) ≤ (t' : ℚ) := by exact_mod_cast ht
      exact div_le_div_of_nonneg_right (by linarith) hcq.le
    split_ifs <;> first | (exfalso; omega) | omega | linarith

set_option maxHeartbeats 2000000 in
theorem marketBasedScore_mono (tag : String) (cats : List String)
    (md : MarketData) {u u' t t' c : ℕ} (hu : u ≤ u') (ht : t ≤ t') :
    calculateMarketBasedScore ⟨tag, u, t, c, cats⟩ md ≤
      calculateMarketBasedScore ⟨tag, u', t', c, cats⟩ md := by
  have hUS := cbts_mono userScoreThresholds hu userTable_mono
  have hTS := cbts_mono trafficScoreThresholds ht trafficTable_mono
  have hEff := efficiency_mono (c := c) hu ht
  simp only [calculateMarketBasedScore]
  split_ifs <;> omega

/-- C7 counterexample.  Two submissions identical except for the user base
(2999 vs 3001; same traffic 30000, same empty tagline, no cost, no
categories): the larger-user-base submission receives a strictly smaller
final valuation (3174 < 3648), because crossing the traffic-to-user-ratio
threshold of 10 forfeits the 1.15 quality bonus. -/
theorem valuation_not_monotone_in_userBase :
    submissionLow.user_base < submissionHigh.user_base ∧
    submissionLow.traffic = submissionHigh.traffic ∧
    submissionLow.tagline = submissionHigh.tagline ∧
    submissionLow.monthly_cost = submissionHigh.monthly_cost ∧
    submissionLow.categories = submissionHigh.categories ∧
    (getEstimatedValuation submissionLow defaultMarketData).valuation =
      3648 ∧
    (getEstimatedValuation submissionHigh defaultMarketData).valuation =
      3174 ∧
    (getEstimatedValuation submissionHigh defaultMarketData).valuation <
      (getEstimatedValuation submissionLow defaultMarketData).valuation := by
  have hT : hasTestIndicator "" = false := by decide
  have h0 : strLen "" = 0 := by decide
  have hA : (getEstimatedValuation submissionLow
      defaultMarketData).valuation = 3648 := by
    simp only [getEstimatedValuation, submissionLow]
    norm_num [userBaseValue, trafficTierValue, revenuePotentialValue,
      calculateBalancedQualityMultiplier, hT, h0, maxValuation, max_def,
      min_def]
    rw [jround_eq_iff]
    norm_num
  have hB : (getEstimatedValuation submissionHigh
      defaultMarketData).valuation = 3174 := by
    simp only [getEstimatedValuation, submissionHigh]
    norm_num [userBaseValue, trafficTierValue, revenuePotentialValue,
      calculateBalancedQualityMultiplier, hT, h0, maxValuation, max_def,
      min_def]
    rw [jround_eq_iff]
    norm_num
  refine ⟨by decide, rfl, rfl, rfl, rfl, hA, hB, ?_⟩
  rw [hA, hB]
  norm_num

/-- C7 amended.  Holding tagline, categories and cost fixed, increasing
`userBase` or `monthlyTraffic` never decreases the corresponding valuation
components (tiered user-base value, tiered traffic value, revenue-potential
value) or the rule-based fallback success score; the final returned
valuation, however, is not monotone (see the counterexample: the
traffic-to-user-ratio quality adjustment can drop the product). -/
theorem traction_monotone_components_and_score (tag : String)
    (cats : List String) (md : MarketData) (c u u' t t' : ℕ)
    (hu : u ≤ u') (ht : t ≤ t') :
    userBaseValue u ≤ userBaseValue u' ∧
    trafficTierValue t ≤ trafficTierValue t' ∧
    revenuePotentialValue u ≤ revenuePotentialValue u' ∧
    calculateMarketBasedScore ⟨tag, u, t, c, cats⟩ md ≤
      calculateMarketBasedScore ⟨tag, u', t', c, cats⟩ md :=
  ⟨userBaseValue_mono hu, trafficTierValue_mono ht,
   revenuePotentialValue_mono hu, marketBasedScore_mono tag cats md hu ht⟩

/-- C7 witness. -/
theorem traction_monotone_components_and_score_witness :
    userBaseValue 3 ≤ userBaseValue 5 ∧
    trafficTierValue 0 ≤ trafficTierValue 7 ∧
    revenuePotentialValue 3 ≤ revenuePotentialValue 5 ∧
    calculateMarketBasedScore ⟨"", 3, 0, 0, []⟩ defaultMarketData ≤
      calculateMarketBasedScore ⟨"", 5, 7, 0, []⟩ defaultMarketData :=
  traction_monotone_components_and_score "" [] defaultMarketData 0 3 5 0 7
    (by norm_num) (by norm_num)

/-- C8 counterexample.  The calibration builder stamps `lastUpdated` with
the wall-clock time of the run, so two runs over the same listings batch at
different instants produce `MarketProfile` values that are not identical
(they differ in the `lastUpdated` field). -/
theorem calibration_not_identical_across_times :
    analyzeMarketData [] "2025-01-01T00:00:00.000Z" ≠
      analyzeMarketData [] "2025-01-08T00:00:00.000Z" := by
  intro h
  have h2 := congrArg MarketDataFull.lastUpdated h
  simp only [analyzeMarketData] at h2
  exact absurd h2 (by decide)

/-- C8 amended.  Apart from the `lastUpdated` timestamp, the calibration is
a pure function of its listings input: every other field of the profiles
produced by two runs over the same batch is equal. -/
theorem calibration_pure_up_to_timestamp
    (allProjects : List LittleExitsProject) (now1 now2 : String) :
    (analyzeMarketData allProjects now1).totalProjects =
      (analyzeMarketData allProjects now2).totalProjects ∧
    (analyzeMarketData allProjects now1).soldProjects =
      (analyzeMarketData allProjects now2).soldProjects ∧
    (analyzeMarketData allProjects now1).categoryMultipliers =
      (analyzeMarketData allProjects now2).categoryMultipliers ∧
    (analyzeMarketData allProjects now1).avgRevenueMultiple =
      (analyzeMarketData allProjects now2).avgRevenueMultiple ∧
    (analyzeMarketData allProjects now1).avgProfitMultiple =
      (analyzeMarketData allProjects now2).avgProfitMultiple ∧
    (analyzeMarketData allProjects now1).avgTrafficValue =
      (analyzeMarketData allProjects now2).avgTrafficValue ∧
    (analyzeMarketData allProjects now1).avgCommunityValue =
      (analyzeMarketData allProjects now2).avgCommunityValue ∧
    (analyzeMarketData allProjects now1).successPatterns =
      (analyzeMarketData allProjects now2).successPatterns ∧
    (analyzeMarketData allProjects now1).topPerformers =
      (analyzeMarketData allProjects now2).topPerformers :=
  ⟨rfl, rfl, rfl, rfl, rfl, rfl, rfl, rfl, rfl⟩

/-- C9 counterexample.  The legacy recompute handler (the variant of
`market-analysis/index.ts` under `src/pages`) performs the recompute and
store on a POST carrying no `Authorization` header at all — which matches
no bearer secret — and answers 200, not 401. -/
theorem legacy_recompute_without_auth :
    (legacyMarketAnalysisPost none [] "now").stored ≠ none ∧
    (none : Option String) ≠ some ("Bearer " ++ "secret") ∧
    (legacyMarketAnalysisPost none [] "now").status = 200 := by
  refine ⟨?_, ?_, rfl⟩
  · simp [legacyMarketAnalysisPost]
  · simp

/-- C9 amended.  For the authenticated variant of the recompute endpoint
(the one that reads `CRON_SECRET`), the recompute and store happen iff the
`Authorization` header equals `Bearer ` + secret (with the `missing-secret`
placeholder when the variable is unset), and any mismatch is answered with
HTTP 401 and no write; the legacy variant under `src/pages` performs the
recompute on every POST without any check. -/
theorem recompute_auth_iff (authHeader cronSecret : Option String)
    (allProjects : List LittleExitsProject) (now : String) :
    ((marketAnalysisPost authHeader cronSecret allProjects now).stored ≠
        none ↔
      authHeader = some ("Bearer " ++ truthyOr cronSecret "missing-secret")) ∧
    (authHeader ≠ some ("Bearer " ++ truthyOr cronSecret "missing-secret") →
      (marketAnalysisPost authHeader cronSecret allProjects now).status =
          401 ∧
      (marketAnalysisPost authHeader cronSecret allProjects now).stored =
        none) ∧
    (∀ h : Option String,
      (legacyMarketAnalysisPost h allProjects now).stored =
        some (analyzeMarketData allProjects now)) := by
  refine ⟨?_, ?_, fun h => rfl⟩
  · constructor
    · intro hs
      by_contra hne
      rw [marketAnalysisPost, if_pos hne] at hs
      exact hs rfl
    · intro he
      rw [marketAnalysisPost, if_neg (by simp [he])]
      simp
  · intro hne
    rw [marketAnalysisPost, if_pos hne]
    exact ⟨rfl, rfl⟩

/-- C9 witness. -/
theorem recompute_auth_iff_witness :
    (marketAnalysisPost none (some "s") [] "now").status = 401 ∧
    (marketAnalysisPost none (some "s") [] "now").stored = none :=
  (recompute_auth_iff none (some "s") [] "now").2.1 (by decide)

theorem lookup_upsert_self {β : Type} (k : String) (f : β → β) (d : β)
    (m : List (String × β)) :
    List.lookup k (upsert k f d m) =
      some (f ((List.lookup k m).getD d)) := by
  induction m with
  | nil => simp [upsert, List.lookup_cons, beq_self_eq_true]
  | cons hd rest ih =>
      obtain ⟨k2, v⟩ := hd
      by_cases h : k2 = k
      · subst h
        simp [upsert, List.lookup_cons, beq_self_eq_true]
      · have hb : (k == k2) = false :=
          beq_eq_false_iff_ne.mpr (fun he => h he.symm)
        simp only [upsert, if_neg h, List.lookup_cons, hb]
        exact ih

theorem lookup_upsert_other {β : Type} {k1 k : String} (hne : k1 ≠ k)
    (f : β → β) (d : β) (m : List (String × β)) :
    List.lookup k (upsert k1 f d m) = List.lookup k m := by
  have hb1 : (k == k1) = false :=
    beq_eq_false_iff_ne.mpr (fun he => hne he.symm)
  induction m with
  | nil => simp [upsert, List.lookup_cons, hb1]
  | cons hd rest ih =>
      obtain ⟨k2, v⟩ := hd
      by_cases h : k2 = k1
      · subst h
        simp only [upsert, eq_self_iff_true, if_true, List.lookup_cons, hb1]
      · simp only [upsert, if_neg h, List.lookup_cons]
        by_cases h2 : k = k2
        · have hb2 : (k == k2) = true := beq_iff_eq.mpr h2
          simp only [hb2]
        · have hb2 : (k == k2) = false := beq_eq_false_iff_ne.mpr h2
          simp only [hb2]
          exact ih

theorem lookup_adjust_self {β : Type} (k : String) (f : β → β)
    (m : List (String × β)) :
    List.lookup k (adjust k f m) = (List.lookup k m).map f := by
  induction m with
  | nil => simp [adjust]
  | cons hd rest ih =>
      obtain ⟨k2, v⟩ := hd
      by_cases h : k2 = k
      · subst h
        simp [adjust, List.lookup_cons, beq_self_eq_true]
      · have hb : (k == k2) = false :=
          beq_eq_false_iff_ne.mpr (fun he => h he.symm)
        simp only [adjust, if_neg h, List.lookup_cons, hb]
        exact ih

theorem lookup_adjust_other {β : Type} {k1 k : String} (hne : k1 ≠ k)
    (f : β → β) (m : List (String × β)) :
    List.lookup k (adjust k1 f m) = List.lookup k m := by
  have hb1 : (k == k1) = false :=
    beq_eq_false_iff_ne.mpr (fun he => hne he.symm)
  induction m with
  | nil => simp [adjust]
  | cons hd rest ih =>
      obtain ⟨k2, v⟩ := hd
      by_cases h : k2 = k1
      · subst h
        simp only [adjust, eq_self_iff_true, if_true, List.lookup_cons, hb1]
      · simp only [adjust, if_neg h, List.lookup_cons]
        by_cases h2 : k = k2
        · have hb2 : (k == k2) = true := beq_iff_eq.mpr h2
          simp only [hb2]
        · have hb2 : (k == k2) = false := beq_eq_false_iff_ne.mpr h2
          simp only [hb2]
          exact ih

theorem lookup_none_not_mem {β : Type} {k : String} {m : List (String × β)}
    (h : List.lookup k m = none) : k ∉ keysOf m := by
  induction m with
  | nil => simp [keysOf]
  | cons hd rest ih =>
      obtain ⟨k2, v⟩ := hd
      by_cases he : k = k2
      · subst he
        simp [List.lookup_cons, beq_self_eq_true] at h
      · have hb : (k == k2) = false := beq_eq_false_iff_ne.mpr he
        simp only [List.lookup_cons, hb] at h
        simp only [keysOf, List.map_cons, List.mem_cons]
        push_neg
        exact ⟨he, by simpa [keysOf] using ih h⟩

theorem statView_upsert {β : Type} (g : β → ℚ) (f : β → β) (d : β) (w : ℚ)
    (hf : ∀ v, g (f v) = g v + w) (hd : g d = 0) (k1 k : String)
    (m : List (String × β)) :
    statView g k (upsert k1 f d m) =
      statView g k m + (if k1 = k then w else 0) := by
  by_cases h : k1 = k
  · subst h
    rw [if_pos rfl, statView, lookup_upsert_self, statView]
    cases hl : List.lookup k1 m with
    | none => simp [hf, hd]
    | some v => simp [hf]
  · rw [if_neg h, statView, lookup_upsert_other h, add_zero, statView]

theorem statView_adjust_keep {β : Type} (g : β → ℚ) (f : β → β)
    (hf : ∀ v, g (f v) = g v) (k1 k : String) (m : List (String × β)) :
    statView g k (adjust k1 f m) = statView g k m := by
  by_cases h : k1 = k
  · subst h
    rw [statView, lookup_adjust_self, statView]
    cases hl : List.lookup k1 m with
    | none => simp
    | some v => simp [hf]
  · rw [statView, lookup_adjust_other h, statView]

theorem statView_adjust_mem {β : Type} (g : β → ℚ) (f : β → β) (w : ℚ)
    (hf : ∀ v, g (f v) = g v + w) {k1 : String} {m : List (String × β)}
    (hmem : k1 ∈ keysOf m) (k : String) :
    statView g k (adjust k1 f m) =
      statView g k m + (if k1 = k then w else 0) := by
  by_cases h : k1 = k
  · subst h
    rw [if_pos rfl, statView, lookup_adjust_self, statView]
    cases hl : List.lookup k1 m with
    | none => exact absurd hmem (lookup_none_not_mem hl)
    | some v => simp [hf]
  · rw [if_neg h, statView, lookup_adjust_other h, add_zero, statView]

theorem statView_nil {β : Type} (g : β → ℚ) (k : String) :
    statView g k ([] : List (String × β)) = 0 := rfl

theorem weightedTotal_eq_sumFor (allProjects : List LittleExitsProject)
    (c : String) :
    weightedTotal allProjects c = sumFor c (allContributions allProjects) := by
  rw [weightedTotal]
  generalize allContributions allProjects = L
  induction L with
  | nil => simp [sumFor]
  | cons cw L ih =>
      by_cases h : cw.1 = c
      · simp [sumFor, List.filter_cons, h, ih]
      · simp [sumFor, List.filter_cons, h, ih]

theorem statView_foldAdd (L : List (String × ℚ))
    (m0 : List (String × CatStats)) (k : String) :
    statView CatStats.weight k
      (L.foldl (fun m cw => addCategory m cw.1 cw.2) m0) =
    statView CatStats.weight k m0 + sumFor k L := by
  induction L generalizing m0 with
  | nil => simp [sumFor]
  | cons cw L ih =>
      rw [List.foldl_cons, ih, sumFor, addCategory,
        statView_upsert CatStats.weight _ _ cw.2 (fun v => rfl) rfl]
      ring

theorem statView_foldSold (L : List (String × ℚ × ℚ))
    (m0 : List (String × CatStats)) (k : String) :
    statView CatStats.weight k
      (L.foldl (fun m cwp => updateSoldStats m cwp.1 cwp.2.1 cwp.2.2) m0) =
    statView CatStats.weight k m0 := by
  induction L generalizing m0 with
  | nil => rfl
  | cons cwp L ih =>
      rw [List.foldl_cons, ih]
      simp only [updateSoldStats]
      exact statView_adjust_keep CatStats.weight
        (fun s => { s with sold := s.sold + cwp.2.1,
                           avgPrice := s.avgPrice + cwp.2.2 * cwp.2.1 })
        (fun v => rfl) cwp.1 k m0

theorem keysOf_adjust {β : Type} (k1 : String) (f : β → β)
    (m : List (String × β)) : keysOf (adjust k1 f m) = keysOf m := by
  induction m with
  | nil => rfl
  | cons hd rest ih =>
      obtain ⟨k2, v⟩ := hd
      by_cases h : k2 = k1
      · subst h
        simp [adjust, keysOf]
      · simp only [adjust, if_neg h, keysOf, List.map_cons]
        have hi : List.map Prod.fst (adjust k1 f rest) =
            List.map Prod.fst rest := by simpa [keysOf] using ih
        rw [hi]

theorem keysOf_upsert {β : Type} (k1 : String) (f : β → β) (d : β)
    (m : List (String × β)) :
    keysOf (upsert k1 f d m) =
      if k1 ∈ keysOf m then keysOf m else keysOf m ++ [k1] := by
  induction m with
  | nil => simp [upsert, keysOf]
  | cons hd rest ih =>
      obtain ⟨k2, v⟩ := hd
      by_cases h : k2 = k1
      · subst h
        simp [upsert, keysOf]
      · simp only [upsert, if_neg h, keysOf, List.map_cons, List.mem_cons]
        have hne : ¬ k1 = k2 := fun he => h he.symm
        by_cases hm : k1 ∈ keysOf rest
        · rw [if_pos (Or.inr (by simpa [keysOf] using hm))]
          have hi : List.map Prod.fst (upsert k1 f d rest) =
              List.map Prod.fst rest := by
            have h2 := ih
            rw [if_pos hm] at h2
            simpa [keysOf] using h2
          rw [hi]
        · rw [if_neg (by
            simp only [keysOf] at hm
            push_neg
            exact ⟨hne, by simpa [keysOf] using hm⟩)]
          have hi : List.map Prod.fst (upsert k1 f d rest) =
              List.map Prod.fst rest ++ [k1] := by
            have h2 := ih
            rw [if_neg hm] at h2
            simpa [keysOf] using h2
          rw [hi]
          simp

theorem nodup_keys_upsert {β : Type} (k1 : String) (f : β → β) (d : β)
    {m : List (String × β)} (h : (keysOf m).Nodup) :
    (keysOf (upsert k1 f d m)).Nodup := by
  rw [keysOf_upsert]
  split_ifs with hm
  · exact h
  · rw [List.nodup_append]
    exact ⟨h, List.nodup_singleton _,
      fun a ha hb => hm (by rwa [show a = k1 from by simpa using hb] at ha)⟩

theorem lookup_of_mem_nodup {β : Type} {m : List (String × β)}
    (hnd : (keysOf m).Nodup) {k : String} {v : β} (hm : (k, v) ∈ m) :
    List.lookup k m = some v := by
  induction m with
  | nil => simp at hm
  | cons hd rest ih =>
      obtain ⟨k2, v2⟩ := hd
      have h0 : (k2 :: List.map Prod.fst rest).Nodup := by
        simpa only [keysOf, List.map_cons] using hnd
      have hpair := List.nodup_cons.mp h0
      rcases List.mem_cons.mp hm with he | hr
      · cases he
        simp [List.lookup_cons, beq_self_eq_true]
      · have hk : k ∈ List.map Prod.fst rest :=
          List.mem_map.mpr ⟨(k, v), hr, rfl⟩
        have hne : (k == k2) = false :=
          beq_eq_false_iff_ne.mpr (fun he => hpair.1 (he ▸ hk))
        simp only [List.lookup_cons, hne]
        exact ih (by simpa only [keysOf] using hpair.2) hr

theorem nodup_keys_categoryStatsOf (allProjects soldProjects :
    List LittleExitsProject) :
    (keysOf (categoryStatsOf allProjects soldProjects)).Nodup := by
  rw [categoryStatsOf]
  have h1 : ∀ (L : List (String × ℚ)) (m0 : List (String × CatStats)),
      (keysOf m0).Nodup →
      (keysOf (L.foldl (fun m cw => addCategory m cw.1 cw.2) m0)).Nodup := by
    intro L
    induction L with
    | nil => intro m0 h; exact h
    | cons cw L ih =>
        intro m0 h
        exact ih _ (nodup_keys_upsert _ _ _ h)
  have h2 : ∀ (L : List (String × ℚ × ℚ)) (m0 : List (String × CatStats)),
      (keysOf m0).Nodup →
      (keysOf (L.foldl
        (fun m cwp => updateSoldStats m cwp.1 cwp.2.1 cwp.2.2) m0)).Nodup := by
    intro L
    induction L with
    | nil => intro m0 h; exact h
    | cons cwp L ih =>
        intro m0 h
        apply ih
        simp only [updateSoldStats]
        rw [keysOf_adjust]
        exact h
  exact h2 _ _ (h1 _ _ (by simp [keysOf]))

/-- Accumulated weight of a key in the category statistics equals the
weighted total of its contributions. -/
theorem statView_categoryStatsOf (allProjects soldProjects :
    List LittleExitsProject) (c : String) :
    statView CatStats.weight c (categoryStatsOf allProjects soldProjects) =
      weightedTotal allProjects c := by
  rw [categoryStatsOf, statView_foldSold, statView_foldAdd, statView_nil,
    weightedTotal_eq_sumFor, zero_add]

/-- C6.  A category whose accumulated weighted total (1.0 per
specific-category occurrence, 0.8 per legacy-list entry, 0.3 per broad
main-category occurrence) is strictly below 3 never appears as a key of the
`categoryMultipliers` mapping built by `analyzeCategoryPerformance`. -/
theorem low_sample_category_excluded
    (allProjects soldProjects : List LittleExitsProject) (c : String)
    (h : weightedTotal allProjects c < 3) :
    c ∉ (analyzeCategoryPerformance allProjects soldProjects).map
      Prod.fst := by
  intro hc
  obtain ⟨p, hp, hpc⟩ := List.mem_map.mp hc
  obtain ⟨⟨k, s⟩, hks, hsome⟩ := List.mem_filterMap.mp hp
  dsimp only at hsome
  by_cases hw : s.weight ≥ 3
  · rw [if_pos hw] at hsome
    obtain ⟨hk, hq⟩ := Prod.mk.injEq .. ▸ Option.some.injEq .. ▸ hsome
    have hlk := lookup_of_mem_nodup
      (nodup_keys_categoryStatsOf allProjects soldProjects) hks
    have hview : statView CatStats.weight k
        (categoryStatsOf allProjects soldProjects) = s.weight := by
      rw [statView, hlk]
    rw [statView_categoryStatsOf] at hview
    rw [← hpc] at h
    rw [← hk] at h
    rw [hview] at h
    linarith
  · rw [if_neg hw] at hsome
    exact Option.noConfusion hsome

/-- C6 witness. -/
theorem low_sample_category_excluded_witness :
    weightedTotal [] "AI" < 3 ∧
    "AI" ∉ (analyzeCategoryPerformance [] []).map Prod.fst := by
  have h : weightedTotal [] "AI" < 3 := by
    rw [weightedTotal_eq_sumFor]
    norm_num [allContributions, sumFor]
  exact ⟨h, low_sample_category_excluded [] [] "AI" h⟩

/-- Every multiplier put out by `analyzeCategoryPerformance` is a clamped,
rounded value, hence in `[0.6, 2]`. -/
theorem analyzeCategoryPerformance_bounds
    (allProjects soldProjects : List LittleExitsProject) {p : String × ℚ}
    (hp : p ∈ analyzeCategoryPerformance allProjects soldProjects) :
    0.6 ≤ p.2 ∧ p.2 ≤ 2 := by
  obtain ⟨⟨k, s⟩, hks, hsome⟩ := List.mem_filterMap.mp hp
  dsimp only at hsome
  by_cases hw : s.weight ≥ 3
  · rw [if_pos hw] at hsome
    have hq : catMultiplier s = p.2 := by
      have := Option.some.injEq .. ▸ hsome
      exact congrArg Prod.snd this
    rw [← hq, catMultiplier]
    exact round1_clamp_bounds _
  · rw [if_neg hw] at hsome
    exact Option.noConfusion hsome

theorem countFor_nonneg (k : String) (ps : List LittleExitsProject) :
    0 ≤ countFor k ps := by
  rw [countFor]
  induction ps with
  | nil => simp [sumFor]
  | cons p ps ih =>
      rw [List.map_cons, sumFor]
      have : (0:ℚ) ≤ if (scriptCategoryOf p, (1:ℚ)).1 = k then
          (scriptCategoryOf p, (1:ℚ)).2 else 0 := by
        split_ifs <;> norm_num
      linarith

theorem countFor_filter_le (k : String) (f : LittleExitsProject → Bool)
    (ps : List LittleExitsProject) :
    countFor k (ps.filter f) ≤ countFor k ps := by
  induction ps with
  | nil => simp [countFor, sumFor]
  | cons p ps ih =>
      rw [countFor, List.filter_cons]
      split_ifs with hf
      · rw [List.map_cons, sumFor]
        rw [countFor, List.map_cons, sumFor]
        have h2 : countFor k (List.filter f ps) ≤ countFor k ps := ih
        rw [countFor] at h2
        rw [countFor] at h2
        linarith
      · have h2 : countFor k (List.filter f ps) ≤ countFor k ps := ih
        rw [countFor] at h2 ⊢
        rw [countFor] at h2
        have h3 : (0:ℚ) ≤ if (scriptCategoryOf p, (1:ℚ)).1 = k then
            (scriptCategoryOf p, (1:ℚ)).2 else 0 := by
          split_ifs <;> norm_num
        rw [List.map_cons, sumFor]
        linarith

theorem adjust_not_mem {β : Type} {k1 : String} (f : β → β)
    {m : List (String × β)} (h : k1 ∉ keysOf m) : adjust k1 f m = m := by
  induction m with
  | nil => rfl
  | cons hd rest ih =>
      obtain ⟨k2, v⟩ := hd
      have hne : ¬ k2 = k1 := by
        intro he
        exact h (by simp [keysOf, he])
      rw [adjust, if_neg hne, ih ?_]
      intro hm
      apply h
      simp only [keysOf, List.map_cons, List.mem_cons]
      exact Or.inr (by simpa [keysOf] using hm)

theorem round1_mem {x : ℚ} (h1 : 0.6 ≤ x) (h2 : x ≤ 2) :
    0.6 ≤ round1 x ∧ round1 x ≤ 2 := by
  have e1 : jround 6 = 6 := by rw [jround_eq_iff]; norm_num
  have e2 : jround 20 = 20 := by rw [jround_eq_iff]; norm_num
  have l1 : jround 6 ≤ jround (x * 10) := jround_le_jround (by linarith)
  have l2 : jround (x * 10) ≤ jround 20 := jround_le_jround (by linarith)
  rw [e1] at l1
  rw [e2] at l2
  constructor
  · rw [round1, le_div_iff₀ (by norm_num)]
    have : (6 : ℚ) ≤ (jround (x * 10) : ℚ) := by exact_mod_cast l1
    linarith
  · rw [round1, div_le_iff₀ (by norm_num)]
    have : (jround (x * 10) : ℚ) ≤ 20 := by exact_mod_cast l2
    linarith

theorem scriptMultiplier_bounds {s : ScriptCatStats} (h0 : 0 ≤ s.soldCount)
    (h1 : s.soldCount ≤ s.total) (h5 : 5 ≤ s.total) :
    0.6 ≤ scriptMultiplier s ∧ scriptMultiplier s ≤ 2 := by
  have htpos : (0 : ℚ) < s.total := by linarith
  have hsr0 : 0 ≤ s.soldCount / s.total := div_nonneg h0 htpos.le
  have hsr1 : s.soldCount / s.total ≤ 1 := (div_le_one htpos).mpr h1
  rw [scriptMultiplier]
  split_ifs <;> exact round1_mem (by linarith) (by linarith)

theorem countFor_cons (k : String) (p : LittleExitsProject)
    (ps : List LittleExitsProject) :
    countFor k (p :: ps) =
      (if scriptCategoryOf p = k then 1 else 0) + countFor k ps := by
  rw [countFor, List.map_cons, sumFor, ← countFor]

theorem script_pass1_total (ps : List LittleExitsProject)
    (m0 : List (String × ScriptCatStats)) (k : String) :
    statView ScriptCatStats.total k
      (ps.foldl (fun m p => upsert (scriptCategoryOf p)
        (fun s => { s with total := s.total + 1 }) ⟨0, 0, 0⟩ m) m0) =
    statView ScriptCatStats.total k m0 + countFor k ps := by
  induction ps generalizing m0 with
  | nil => simp [countFor, sumFor]
  | cons p ps ih =>
      rw [List.foldl_cons, ih,
        statView_upsert ScriptCatStats.total
          (fun s => { s with total := s.total + 1 }) ⟨0, 0, 0⟩ 1
          (fun v => rfl) rfl]
      rw [countFor_cons]
      ring

theorem script_pass1_sold (ps : List LittleExitsProject)
    (m0 : List (String × ScriptCatStats)) (k : String) :
    statView ScriptCatStats.soldCount k
      (ps.foldl (fun m p => upsert (scriptCategoryOf p)
        (fun s => { s with total := s.total + 1 }) ⟨0, 0, 0⟩ m) m0) =
    statView ScriptCatStats.soldCount k m0 := by
  induction ps generalizing m0 with
  | nil => rfl
  | cons p ps ih =>
      rw [List.foldl_cons, ih,
        statView_upsert ScriptCatStats.soldCount
          (fun s => { s with total := s.total + 1 }) ⟨0, 0, 0⟩ 0
          (fun v => (add_zero _).symm) rfl]
      split_ifs <;> ring

theorem script_pass2_total (ps : List LittleExitsProject)
    (m0 : List (String × ScriptCatStats)) (k : String) :
    statView ScriptCatStats.total k
      (ps.foldl (fun m p => adjust (scriptCategoryOf p)
        (fun s => { s with soldCount := s.soldCount + 1,
                           totalPrice := s.totalPrice + p.price }) m) m0) =
    statView ScriptCatStats.total k m0 := by
  induction ps generalizing m0 with
  | nil => rfl
  | cons p ps ih =>
      rw [List.foldl_cons, ih,
        statView_adjust_keep ScriptCatStats.total
          (fun s => { s with soldCount := s.soldCount + 1,
                             totalPrice := s.totalPrice + p.price })
          (fun v => rfl)]

theorem script_pass2_sold_le (ps : List LittleExitsProject)
    (m0 : List (String × ScriptCatStats)) (k : String) :
    statView ScriptCatStats.soldCount k
      (ps.foldl (fun m p => adjust (scriptCategoryOf p)
        (fun s => { s with soldCount := s.soldCount + 1,
                           totalPrice := s.totalPrice + p.price }) m) m0) ≤
    statView ScriptCatStats.soldCount k m0 + countFor k ps := by
  induction ps generalizing m0 with
  | nil => simp [countFor, sumFor]
  | cons p ps ih =>
      rw [List.foldl_cons]
      refine le_trans (ih _) ?_
      rw [countFor_cons]
      have hstep : statView ScriptCatStats.soldCount k
          (adjust (scriptCategoryOf p)
            (fun s => { s with soldCount := s.soldCount + 1,
                               totalPrice := s.totalPrice + p.price }) m0) ≤
          statView ScriptCatStats.soldCount k m0 +
            (if scriptCategoryOf p = k then 1 else 0) := by
        by_cases hmem : scriptCategoryOf p ∈ keysOf m0
        · rw [statView_adjust_mem ScriptCatStats.soldCount
            (fun s => { s with soldCount := s.soldCount + 1,
                               totalPrice := s.totalPrice + p.price })
            1 (fun v => rfl) hmem k]
        · rw [adjust_not_mem _ hmem]
          split_ifs <;> linarith
      linarith

theorem script_pass2_sold_ge (ps : List LittleExitsProject)
    (m0 : List (String × ScriptCatStats)) (k : String) :
    statView ScriptCatStats.soldCount k m0 ≤
    statView ScriptCatStats.soldCount k
      (ps.foldl (fun m p => adjust (scriptCategoryOf p)
        (fun s => { s with soldCount := s.soldCount + 1,
                           totalPrice := s.totalPrice + p.price }) m) m0) := by
  induction ps generalizing m0 with
  | nil => exact le_rfl
  | cons p ps ih =>
      rw [List.foldl_cons]
      refine le_trans ?_ (ih _)
      by_cases hmem : scriptCategoryOf p ∈ keysOf m0
      · rw [statView_adjust_mem ScriptCatStats.soldCount
          (fun s => { s with soldCount := s.soldCount + 1,
                             totalPrice := s.totalPrice + p.price })
          1 (fun v => rfl) hmem k]
        split_ifs <;> linarith
      · rw [adjust_not_mem _ hmem]

theorem nodup_keys_scriptStats (allProjects soldProjects :
    List LittleExitsProject) :
    (keysOf (soldProjects.foldl
      (fun (m : List (String × ScriptCatStats)) p =>
        adjust (scriptCategoryOf p)
        (fun s => { s with soldCount := s.soldCount + 1,
                           totalPrice := s.totalPrice + p.price })
        m)
      (allProjects.foldl
        (fun (m : List (String × ScriptCatStats)) p =>
          upsert (scriptCategoryOf p)
          (fun s => { s with total := s.total + 1 }) ⟨0, 0, 0⟩ m)
        ([] : List (String × ScriptCatStats))))).Nodup := by
  have h1 : ∀ (ps : List LittleExitsProject)
      (m0 : List (String × ScriptCatStats)), (keysOf m0).Nodup →
      (keysOf (ps.foldl (fun m p => upsert (scriptCategoryOf p)
        (fun s => { s with total := s.total + 1 }) ⟨0, 0, 0⟩ m) m0)).Nodup := by
    intro ps
    induction ps with
    | nil => intro m0 h; exact h
    | cons p ps ih => intro m0 h; exact ih _ (nodup_keys_upsert _ _ _ h)
  have h2 : ∀ (ps : List LittleExitsProject)
      (m0 : List (String × ScriptCatStats)), (keysOf m0).Nodup →
      (keysOf (ps.foldl (fun m p => adjust (scriptCategoryOf p)
        (fun s => { s with soldCount := s.soldCount + 1,
                           totalPrice := s.totalPrice + p.price }) m)
        m0)).Nodup := by
    intro ps
    induction ps with
    | nil => intro m0 h; exact h
    | cons p ps ih =>
        intro m0 h
        apply ih
        rw [keysOf_adjust]
        exact h
  exact h2 _ _ (h1 _ _ (by simp [keysOf]))

/-- C5.  Every value of the `categoryMultipliers` mapping lies in
`[0.6, 2.0]`: for the calibration builder (`analyzeCategoryPerformance`)
this follows from the final clamp and one-decimal rounding; the standalone
update script (`generateCategoryMultipliers`, applied as at its call site to
the batch and its sold sublist) stays inside the interval as well because
its success rate is in `[0, 1]`. -/
theorem category_multipliers_in_bounds
    (allProjects soldProjects : List LittleExitsProject) :
    ((analyzeCategoryPerformance allProjects soldProjects).all
      (fun p => decide (0.6 ≤ p.2 ∧ p.2 ≤ 2)) = true) ∧
    ((generateCategoryMultipliers allProjects
        (allProjects.filter (fun p => p.sold))).all
      (fun p => decide (0.6 ≤ p.2 ∧ p.2 ≤ 2)) = true) := by
  constructor
  · rw [List.all_eq_true]
    intro p hp
    rw [decide_eq_true_eq]
    exact analyzeCategoryPerformance_bounds allProjects soldProjects hp
  · rw [List.all_eq_true]
    intro p hp
    rw [decide_eq_true_eq]
    simp only [generateCategoryMultipliers] at hp
    obtain ⟨⟨k, s⟩, hks, hsome⟩ := List.mem_filterMap.mp hp
    dsimp only at hsome
    by_cases h5 : s.total ≥ 5
    · rw [if_pos h5] at hsome
      have hps : p.2 = scriptMultiplier s := by
        have h := Option.some.injEq .. ▸ hsome
        exact (congrArg Prod.snd h).symm
      have hnd := nodup_keys_scriptStats allProjects
        (allProjects.filter (fun p => p.sold))
      have hlk := lookup_of_mem_nodup hnd hks
      have hview_t : statView ScriptCatStats.total k
          ((allProjects.filter (fun p => p.sold)).foldl
            (fun m p => adjust (scriptCategoryOf p)
              (fun s => { s with soldCount := s.soldCount + 1,
                                 totalPrice := s.totalPrice + p.price }) m)
            (allProjects.foldl (fun m p => upsert (scriptCategoryOf p)
              (fun s => { s with total := s.total + 1 }) ⟨0, 0, 0⟩ m)
              ([] : List (String × ScriptCatStats)))) = s.total := by
        rw [statView, hlk]
      have hview_s : statView ScriptCatStats.soldCount k
          ((allProjects.filter (fun p => p.sold)).foldl
            (fun m p => adjust (scriptCategoryOf p)
              (fun s => { s with soldCount := s.soldCount + 1,
                                 totalPrice := s.totalPrice + p.price }) m)
            (allProjects.foldl (fun m p => upsert (scriptCategoryOf p)
              (fun s => { s with total := s.total + 1 }) ⟨0, 0, 0⟩ m)
              ([] : List (String × ScriptCatStats)))) = s.soldCount := by
        rw [statView, hlk]
      have h1 := script_pass2_total (allProjects.filter (fun p => p.sold))
        (allProjects.foldl (fun m p => upsert (scriptCategoryOf p)
          (fun s => { s with total := s.total + 1 }) ⟨0, 0, 0⟩ m)
          ([] : List (String × ScriptCatStats))) k
      have h2 := script_pass1_total allProjects
        ([] : List (String × ScriptCatStats)) k
      rw [h2, statView_nil, zero_add] at h1
      rw [hview_t] at h1
      have h3 := script_pass2_sold_le (allProjects.filter (fun p => p.sold))
        (allProjects.foldl (fun m p => upsert (scriptCategoryOf p)
          (fun s => { s with total := s.total + 1 }) ⟨0, 0, 0⟩ m)
          ([] : List (String × ScriptCatStats))) k
      have h4 := script_pass2_sold_ge (allProjects.filter (fun p => p.sold))
        (allProjects.foldl (fun m p => upsert (scriptCategoryOf p)
          (fun s => { s with total := s.total + 1 }) ⟨0, 0, 0⟩ m)
          ([] : List (String × ScriptCatStats))) k
      have h5b := script_pass1_sold allProjects
        ([] : List (String × ScriptCatStats)) k
      rw [h5b, statView_nil] at h3 h4
      rw [hview_s] at h3 h4
      have hcf := countFor_filter_le k (fun p => p.sold) allProjects
      rw [hps]
      exact scriptMultiplier_bounds h4 (by linarith) (by linarith)
    · rw [if_neg h5] at hsome
      exact Option.noConfusion hsome

theorem traffic_list_eq (soldProjects : List LittleExitsProject) :
    (soldProjects.filter hasPositiveTraffic).map
      (fun p => p.price / (trafficOf p).getD 0) =
    soldProjects.filterMap (fun p =>
      match trafficOf p with
      | some tr => if 0 < tr then some (p.price / tr) else none
      | none => none) := by
  induction soldProjects with
  | nil => rfl
  | cons p ps ih =>
      rw [List.filter_cons, List.filterMap_cons]
      cases h : trafficOf p with
      | none =>
          have hb : hasPositiveTraffic p = false := by
            rw [hasPositiveTraffic, h]
          simp [hb, h, ih]
      | some tr =>
          by_cases h2 : 0 < tr
          · have hb : hasPositiveTraffic p = true := by
              rw [hasPositiveTraffic, h]
              exact decide_eq_true (by exact_mod_cast h2)
            simp [hb, h, h2, ih]
          · have hb : hasPositiveTraffic p = false := by
              rw [hasPositiveTraffic, h]
              exact decide_eq_false (by exact_mod_cast h2)
            simp [hb, h, h2, ih]

theorem users_list_eq (soldProjects : List LittleExitsProject) :
    (soldProjects.filter hasPositiveUsers).map
      (fun p => p.price / (usersOf p).getD 0) =
    soldProjects.filterMap (fun p =>
      match usersOf p with
      | some u => if 0 < u then some (p.price / u) else none
      | none => none) := by
  induction soldProjects with
  | nil => rfl
  | cons p ps ih =>
      rw [List.filter_cons, List.filterMap_cons]
      cases h : usersOf p with
      | none =>
          have hb : hasPositiveUsers p = false := by
            rw [hasPositiveUsers, h]
          simp [hb, h, ih]
      | some u =>
          by_cases h2 : 0 < u
          · have hb : hasPositiveUsers p = true := by
              rw [hasPositiveUsers, h]
              exact decide_eq_true (by exact_mod_cast h2)
            simp [hb, h, h2, ih]
          · have hb : hasPositiveUsers p = false := by
              rw [hasPositiveUsers, h]
              exact decide_eq_false (by exact_mod_cast h2)
            simp [hb, h, h2, ih]

theorem round2_point_one : round2 0.1 = 0.1 := by
  have h : jround ((0.1 : ℚ) * 100) = 10 := by rw [jround_eq_iff]; norm_num
  rw [round2, h]
  norm_num

theorem round2_five : round2 5 = 5 := by
  have h : jround ((5 : ℚ) * 100) = 500 := by rw [jround_eq_iff]; norm_num
  rw [round2, h]
  norm_num

/-- C4 amended.  The calibration builder's `calculateMarketMetrics` computes
`avgTrafficValue` as the average of `price/traffic` over sold listings with
positive traffic — with no outlier filtering — rounded to two decimals,
defaulting to 0.1 when no such listing exists; `avgCommunityValue` likewise
over `price/users` with default 5.  (The outlier-filtered procedure of the
claim exists only in `calculateValuationMetrics` of the separate
analyze-success-patterns endpoint.) -/
theorem market_metrics_unfiltered (soldProjects : List LittleExitsProject) :
    (calculateMarketMetrics soldProjects).avgTrafficValue =
      unfilteredAvgTrafficValue soldProjects ∧
    (calculateMarketMetrics soldProjects).avgCommunityValue =
      unfilteredAvgCommunityValue soldProjects := by
  by_cases hs : soldProjects.length = 0
  · have he : soldProjects = [] := List.length_eq_zero.mp hs
    subst he
    exact ⟨rfl, rfl⟩
  · constructor
    · rw [calculateMarketMetrics, if_neg hs]
      simp only [unfilteredAvgTrafficValue]
      rw [← traffic_list_eq]
      simp only [List.length_map]
      by_cases hl : (soldProjects.filter hasPositiveTraffic).length > 0
      · rw [if_pos hl, if_pos hl]
      · rw [if_neg hl, if_neg hl, round2_point_one]
    · rw [calculateMarketMetrics, if_neg hs]
      simp only [unfilteredAvgCommunityValue]
      rw [← users_list_eq]
      simp only [List.length_map]
      by_cases hl : (soldProjects.filter hasPositiveUsers).length > 0
      · rw [if_pos hl, if_pos hl]
      · rw [if_neg hl, if_neg hl, round2_five]

/-- C4 counterexample.  A single sold listing with price 10000 and traffic
100 has ratio 100, outside the claimed outlier band `(0, 50)`: the spec's
procedure would fall back to the default 0.1, but `calculateMarketMetrics`
returns 100. -/
theorem market_metrics_not_outlier_filtered :
    (calculateMarketMetrics [outlierListing]).avgTrafficValue = 100 ∧
    specAvgTrafficValue [outlierListing] = 0.1 ∧
    (100 : ℚ) ≠ 0.1 := by
  have htr : trafficOf outlierListing = some 100 := rfl
  have hb : hasPositiveTraffic outlierListing = true := by
    rw [hasPositiveTraffic, htr]
    exact decide_eq_true (by norm_num)
  refine ⟨?_, ?_, by norm_num⟩
  · have h1 : (calculateMarketMetrics [outlierListing]).avgTrafficValue =
        round2 (outlierListing.price / (trafficOf outlierListing).getD 0 /
          1) := by
      rw [calculateMarketMetrics, if_neg (by simp)]
      simp [hb]
    rw [h1, htr]
    have h2 : outlierListing.price = 10000 := rfl
    rw [h2]
    have h3 : (10000 : ℚ) / (Option.getD (some 100) 0) / 1 = 100 := by
      norm_num
    rw [h3, round2]
    have h4 : jround ((100 : ℚ) * 100) = 10000 := by
      rw [jround_eq_iff]
      norm_num
    rw [h4]
    norm_num
  · rw [specAvgTrafficValue]
    simp only [List.filter_cons, hb, if_true, List.filter_nil]
    have h5 : (List.filter
        (fun r => decide (0 < r ∧ r < 50))
        (List.map (fun p => p.price / (trafficOf p).getD 0)
          [outlierListing])) = [] := by
      simp only [List.map_cons, List.map_nil, List.filter_cons,
        List.filter_nil, htr]
      rw [if_neg (by
        rw [decide_eq_true_eq]
        intro hcon
        have he : outlierListing.price / (Option.getD (some 100) 0) =
            (100 : ℚ) := by
          have h2 : outlierListing.price = 10000 := rfl
          rw [h2]
          norm_num
        rw [he] at hcon
        exact absurd hcon.2 (by norm_num))]
    rw [h5]
    rfl
